import Mathlib

/-!
Human body temperature simulation: a shallow embedding.

The two programs of the repository (`Tcore simulation/main.cpp`, the wet-bulb
sweep, and `Time-dependent simulation/main.cpp`, the time series) share the
header `processes.h`.  C++ `double` values are idealised as real numbers, the
library functions `std::sqrt`, `std::exp`, `std::atan`, `std::pow` and
`std::abs` are the real functions of the same name, and the `int` loop counter
`i` is a natural number (the code never decrements it; signed overflow after
2^31 steps is undefined in C++ and is outside the model).

A `for`/`while` loop whose number of iterations is not known in advance is a
function with a fuel argument that returns `none` when the fuel runs out.

The continuation test of the integrator loop is given twice: on real numbers
(`loopGuard`, used by the loops) and on doubles that may be NaN or infinite
(`loopGuardDbl`), where every comparison with NaN is false as in C++.
-/

namespace HumanTemp

noncomputable section

/-! ## processes.h -/

/-- Resting energy expenditure `REE(m, h, a, male)` in watts. -/
def REE (m h a : ℝ) (male : Bool) : ℝ :=
  if male then
    0.0484 * (10.0 * m + 6.2 * h - 5.0 * a + 5)
  else
    0.0484 * (10.0 * m + 6.2 * h - 5.0 * a - 161)

/-- Mosteller body surface area `BSA(m, h)`: `std::sqrt(m*h/3600)`. -/
def BSA (m h : ℝ) : ℝ :=
  Real.sqrt (m * h / 3600)

/-- Black-body radiation `bbRad(A, T, Ts)`; the area argument is not used by the body. -/
def bbRad (_A T Ts : ℝ) : ℝ :=
  0.0000000567 * ((T + 273.15) ^ 4 - (Ts + 273.15) ^ 4)

/-- Solar radiation heat `solarRad(A, refl)`. -/
def solarRad (A refl : ℝ) : ℝ :=
  0.25 * A * 0 * (1.0 - refl)

/-- Saturation vapour pressure `satVP(T)`. -/
def satVP (T : ℝ) : ℝ :=
  6.108 * Real.exp ((17.27 * T) / (237.3 + T))

/-- Vapour pressure `vapP(T, Tw)`; the local `Es = satVP(T)` is computed but not used. -/
def vapP (T Tw : ℝ) : ℝ :=
  let Ew := satVP Tw
  Ew - (0.00066 * (1 + 0.00115 * Tw) * (T - Tw) * 101.3)

/-- Kerslake evaporation heat loss `evap(v, T, Ts, Tw)`. -/
def evap (v T Ts Tw : ℝ) : ℝ :=
  12.4 * Real.sqrt v * (vapP T Tw - satVP Ts)

/-- Kerslake convection `conv(v, T, Ts)`. -/
def conv (v T Ts : ℝ) : ℝ :=
  8.3 * Real.sqrt v * (T - Ts)

/-- Blood flow `vb(Tc, Ts)` in litres per hour and square metre. -/
def vb (Tc Ts : ℝ) : ℝ :=
  0.7 * ((2.07 * Tc) - 75.44) * ((100.0 / 3.14159) * Real.arctan (0.75 * (Ts - 34.7)) + 53)

/-- Ratio of shell volume to body volume `alpha(vb)`. -/
def alpha (vb : ℝ) : ℝ :=
  0.044 + (0.35 / (vb - 0.1386))

/-- Core surface area `coreA(alpha, BSA)`: `std::pow(1 - alpha, 2.0/3.0) * BSA`. -/
def coreA (alpha BSA : ℝ) : ℝ :=
  (1 - alpha) ^ ((2.0 : ℝ) / 3.0) * BSA

/-- Energy exchange between core and shell `fc(Tc, Ts, BSA)`, positive is core to shell. -/
def fc (Tc Ts BSA : ℝ) : ℝ :=
  let flow := vb Tc Ts
  coreA (alpha flow) BSA * flow * (10e-7) * 1060 * 3860 * (Tc - Ts)
    + bbRad (coreA (alpha flow) BSA) Tc Ts

/-! ## The variables and the integrator loop shared by both programs -/

/-- The mutable variables of `main`: the thermal state `Tc`, `Ts`, `W`, the flux
variables of the last step and the counter copy `i2`. -/
structure Vars where
  Tc : ℝ
  Ts : ℝ
  W : ℝ
  S : ℝ
  L : ℝ
  M : ℝ
  Rs : ℝ
  Rb : ℝ
  Fs : ℝ
  Fc : ℝ
  coreFlow : ℝ
  i2 : ℕ

/-- The continuation test of the integrator loop, the same text in both programs:
`(Tc < 42)&&((std::abs(Fs) > 1e-4)||(std::abs(Fc) > 1e-4))`. -/
def loopGuard (Tc Fs Fc : ℝ) : Prop :=
  Tc < 42 ∧ (|Fs| > 1e-4 ∨ |Fc| > 1e-4)

instance loopGuardDecidable (Tc Fs Fc : ℝ) : Decidable (loopGuard Tc Fs Fc) := by
  unfold loopGuard
  infer_instance

/-- One executed loop iteration: the counter value, the variables on entry of the
body and the variables when the body is left (a record kept for the proofs, the
program does not store it). -/
structure StepRec where
  i : ℕ
  pre : Vars
  post : Vars

/-- What a terminated integrator loop leaves behind: the variables after the loop,
the iterations it executed in order, and the rows it wrote. -/
structure LoopResult (ρ : Type) where
  final : Vars
  steps : List StepRec
  rows : List ρ

/-- The loop `for(int i = 0; guard; i++) { body; if(i % 600 == 0) write a row; }`
started with counter `i` and variables `s`; `body i s` is the effect of the
assignments of the body, `emit i s` the row written from the updated variables.
The test is made before every iteration, the first included. -/
def runLoop {ρ : Type} (body : ℕ → Vars → Vars) (emit : ℕ → Vars → ρ) :
    ℕ → ℕ → Vars → Option (LoopResult ρ)
  | 0, _, _ => none
  | fuel + 1, i, s =>
    if loopGuard s.Tc s.Fs s.Fc then
      let s1 := body i s
      match runLoop body emit fuel (i + 1) s1 with
      | none => none
      | some r =>
        some { final := r.final
               steps := { i := i, pre := s, post := s1 } :: r.steps
               rows := if i % 600 = 0 then emit i s1 :: r.rows else r.rows }
    else
      some { final := s, steps := [], rows := [] }

/-- The metabolic heat used by a run (both programs, after reading the
configuration): `if(met == 0) { if(gend == 'm') met = REE(m, h, a, MALE); else
met = REE(m, h, a, FEMALE); }`. -/
def metabolicRate (met m h a : ℝ) (gend : Char) : ℝ :=
  if met = 0 then
    if gend = 'm' then REE m h a true else REE m h a false
  else
    met

/-! ## Tcore simulation/main.cpp: the wet-bulb sweep -/

/-- The values the sweep program holds after reading `config.txt`. -/
structure Config where
  m : ℝ
  h : ℝ
  a : ℝ
  refl : ℝ
  T : ℝ
  TwL : ℝ
  TwH : ℝ
  v : ℝ
  met : ℝ
  gend : Char

/-- The values the parameters have when `config.txt` sets none of them; `gend`
has no default in the program and is given here. -/
def defaultConfig (gend : Char) : Config :=
  { m := 80, h := 185, a := 25, refl := 0.50, T := 30, TwL := 22, TwH := 35,
    v := 5.0, met := 0, gend := gend }

/-- The variables before the sweep loop: `Tc = 37`, `Ts = 35`, `W = 0`, `i2 = 0`.
The flux variables are declared without a value; `Fs` and `Fc` are assigned before
the first test and the others are assigned by the first iteration before any
read, so the value given to them here is never observed. -/
def sweepInit : Vars :=
  { Tc := 37, Ts := 35, W := 0, S := 0, L := 0, M := 0, Rs := 0, Rb := 0,
    Fs := 0, Fc := 0, coreFlow := 0, i2 := 0 }

/-- The assignments of one iteration of the inner loop of the sweep, in program
order; `A` and `met` are the surface area and metabolic heat computed before
the loops, `tempt` the wet-bulb value of the run.  The update of `Tc` reads the
already updated `Ts`. -/
def sweepStep (c : Config) (A met tempt : ℝ) (i : ℕ) (s : Vars) : Vars :=
  let S := conv c.v c.T s.Ts
  let L := evap c.v c.T s.Ts tempt
  let M := met
  let Rs := solarRad A c.refl
  let Rb := bbRad A c.T s.Ts
  let coreFlow := fc s.Tc s.Ts A
  let Fs := 0.1 * (S + L + Rs + Rb + coreFlow)
  let Fc := 0.1 * (M - coreFlow)
  let W := s.W - L / 2416000
  let Ts := s.Ts + Fs / (3874 * (alpha (vb s.Tc s.Ts) * c.m))
  let Tc := s.Tc + Fc / (3874 * ((1 - alpha (vb s.Tc Ts)) * c.m))
  { Tc := Tc, Ts := Ts, W := W, S := S, L := L, M := M, Rs := Rs, Rb := Rb,
    Fs := Fs, Fc := Fc, coreFlow := coreFlow, i2 := i }

/-- A row of the run file: `outputN(outfile, sec, S, L, M, Rs, Rb, Fs, Fc, Ts, Tc, W)`. -/
structure Row where
  sec : ℕ
  S : ℝ
  L : ℝ
  M : ℝ
  Rs : ℝ
  Rb : ℝ
  Fs : ℝ
  Fc : ℝ
  Ts : ℝ
  Tc : ℝ
  W : ℝ

/-- The row written for counter value `i` from the variables `s` (`i/10` is the
integer quotient). -/
def sweepRow (i : ℕ) (s : Vars) : Row :=
  { sec := i / 10, S := s.S, L := s.L, M := s.M, Rs := s.Rs, Rb := s.Rb,
    Fs := s.Fs, Fc := s.Fc, Ts := s.Ts, Tc := s.Tc, W := s.W }

/-- What one wet-bulb value of the sweep leaves behind: the value, the variables
on entry of the inner loop (kept for the proofs), the inner loop, the row
written after it and the row of `data.txt`. -/
structure RunRecord where
  tempt : ℝ
  start : Vars
  result : LoopResult Row
  lastRow : Row
  data : ℝ × ℝ

/-- The body of the outer loop for the wet-bulb value `tempt`, entered with the
variables `s`: `Fs = 1; Fc = 1;`, the inner loop, the closing row and the data
row.  No other variable is assigned before the inner loop. -/
def sweepRun (c : Config) (A met : ℝ) (fuel : ℕ) (tempt : ℝ) (s : Vars) : Option RunRecord :=
  let s1 : Vars := { s with Fs := 1, Fc := 1 }
  match runLoop (sweepStep c A met tempt) sweepRow fuel 0 s1 with
  | none => none
  | some r =>
    some { tempt := tempt, start := s1, result := r,
           lastRow := sweepRow r.final.i2 r.final, data := (tempt, r.final.Tc) }

/-- The outer loop `for (double tempt = TwL; tempt < TwH+0.001; tempt = tempt + 0.02)`
from the value `tempt` and the variables `s`; every inner loop gets `fuel`. -/
def sweepFrom (c : Config) (A met : ℝ) (fuel : ℕ) : ℕ → ℝ → Vars → Option (List RunRecord)
  | 0, _, _ => none
  | k + 1, tempt, s =>
    if tempt < c.TwH + 0.001 then
      match sweepRun c A met fuel tempt s with
      | none => none
      | some rec =>
        match sweepFrom c A met fuel k (tempt + 0.02) rec.result.final with
        | none => none
        | some recs => some (rec :: recs)
    else
      some []

/-- The sweep program after the configuration is read: surface area, metabolic
heat, initial variables, then the outer loop from `TwL`. -/
def sweepMain (c : Config) (outerFuel fuel : ℕ) : Option (List RunRecord) :=
  let A := BSA c.m c.h
  let met := metabolicRate c.met c.m c.h c.a c.gend
  sweepFrom c A met fuel outerFuel c.TwL sweepInit

/-! ## Time-dependent simulation/main.cpp: the time series -/

/-- The values the time-series program holds after reading `config.txt`. -/
structure TimeConfig where
  m : ℝ
  h : ℝ
  a : ℝ
  refl : ℝ
  T : ℝ
  Tw : ℝ
  v : ℝ
  met : ℝ
  gend : Char

/-- The variables before the loop of the time-series program: `Tc = 36.5`,
`Ts = 31.3`, `W = 0`, `i2 = 0`, `Fs = 1`, `Fc = 1`; the other flux variables are
assigned by the first iteration before any read. -/
def timeInit : Vars :=
  { Tc := 36.5, Ts := 31.3, W := 0, S := 0, L := 0, M := 0, Rs := 0, Rb := 0,
    Fs := 1, Fc := 1, coreFlow := 0, i2 := 0 }

/-- The assignments of one iteration of the loop of the time-series program. -/
def timeStep (c : TimeConfig) (A met : ℝ) (i : ℕ) (s : Vars) : Vars :=
  let S := conv c.v c.T s.Ts
  let L := evap c.v c.T s.Ts c.Tw
  let M := met
  let Rs := solarRad A c.refl
  let Rb := bbRad A c.T s.Ts
  let coreFlow := fc s.Tc s.Ts A
  let Fs := S + L + Rs + Rb + coreFlow
  let Fc := M - coreFlow
  let Ts := s.Ts + 0.1 * Fs / (0.1 * c.m * 3874)
  let Tc := s.Tc + 0.1 * Fc / (0.9 * c.m * 3874)
  { Tc := Tc, Ts := Ts, W := s.W, S := S, L := L, M := M, Rs := Rs, Rb := Rb,
    Fs := Fs, Fc := Fc, coreFlow := coreFlow, i2 := i }

/-- A row of the time-series file: `i/600`, `Tc`, `Ts`. -/
structure TimeRow where
  minute : ℕ
  Tc : ℝ
  Ts : ℝ

/-- The row written for counter value `i` from the variables `s`. -/
def timeRow (i : ℕ) (s : Vars) : TimeRow :=
  { minute := i / 600, Tc := s.Tc, Ts := s.Ts }

/-- The time-series program after the configuration is read. -/
def timeMain (c : TimeConfig) (fuel : ℕ) : Option (LoopResult TimeRow) :=
  let A := BSA c.m c.h
  let met := metabolicRate c.met c.m c.h c.a c.gend
  runLoop (timeStep c A met) timeRow fuel 0 timeInit

/-! ## Concrete configurations used to evaluate the programs -/

/-- A sweep configuration with the default body and two wet-bulb values (22 and
22.02) whose metabolic override is large enough for one step to carry the core
temperature past 42. -/
def hotConfig : Config :=
  { m := 80, h := 185, a := 25, refl := 0.50, T := 30, TwL := 22, TwH := 22.02,
    v := 5.0, met := 100000000, gend := 'm' }

/-- The time-series counterpart of `hotConfig`. -/
def hotTimeConfig : TimeConfig :=
  { m := 80, h := 185, a := 25, refl := 0.50, T := 30, Tw := 35,
    v := 5.0, met := 100000000, gend := 'm' }

/-- A sweep configuration without wind and with a tiny metabolic override, at
which a body whose core and skin are at the dry-bulb temperature is at rest. -/
def stillConfig : Config :=
  { m := 80, h := 185, a := 25, refl := 0.50, T := 35, TwL := 22, TwH := 35,
    v := 0, met := 0.00001, gend := 'm' }

/-- Variables with core and skin temperature 35 and everything else 0. -/
def stillVars : Vars :=
  { Tc := 35, Ts := 35, W := 0, S := 0, L := 0, M := 0, Rs := 0, Rb := 0,
    Fs := 0, Fc := 0, coreFlow := 0, i2 := 0 }

/-- The variables on entry of the first inner loop of the sweep. -/
def sweepStart : Vars :=
  { sweepInit with Fs := 1, Fc := 1 }

/-- The variables after the first step of the sweep at `hotConfig`. -/
def hotVars : Vars :=
  sweepStep hotConfig (BSA 80 185) 100000000 22 0 sweepStart

/-- The record of the first wet-bulb value of the sweep at `hotConfig`: one step. -/
def hotRun1 : RunRecord :=
  { tempt := 22, start := sweepStart,
    result := { final := hotVars, steps := [{ i := 0, pre := sweepStart, post := hotVars }],
                rows := [sweepRow 0 hotVars] },
    lastRow := sweepRow 0 hotVars, data := (22, hotVars.Tc) }

/-- The record of the second wet-bulb value of the sweep at `hotConfig`: no step. -/
def hotRun2 : RunRecord :=
  { tempt := 22 + 0.02, start := { hotVars with Fs := 1, Fc := 1 },
    result := { final := { hotVars with Fs := 1, Fc := 1 }, steps := [], rows := [] },
    lastRow := sweepRow 0 { hotVars with Fs := 1, Fc := 1 }, data := (22 + 0.02, hotVars.Tc) }

/-- The variables after the first step of the time series at `hotTimeConfig`. -/
def hotTimeVars : Vars :=
  timeStep hotTimeConfig (BSA 80 185) 100000000 0 timeInit

/-- A sweep configuration with the default body in still air at 35 degrees and
no metabolic override. -/
def calmConfig : Config :=
  { m := 80, h := 185, a := 25, refl := 0.50, T := 35, TwL := 22, TwH := 35,
    v := 0, met := 0, gend := 'm' }

/-- The time-series counterpart of `calmConfig`, at wet-bulb temperature 22. -/
def calmTimeConfig : TimeConfig :=
  { m := 80, h := 185, a := 25, refl := 0.50, T := 35, Tw := 22,
    v := 0, met := 0, gend := 'm' }

/-- The variables after the first step of the sweep at `calmConfig`. -/
def calmVars : Vars :=
  sweepStep calmConfig (BSA calmConfig.m calmConfig.h)
    (metabolicRate calmConfig.met calmConfig.m calmConfig.h calmConfig.a calmConfig.gend)
    calmConfig.TwL 0 sweepStart

/-! ## The loop test on doubles with NaN and infinities -/

/-- A C++ `double` as a comparison sees it: not-a-number, one of the two
infinities, or a real number (rounding is not modelled). -/
inductive Dbl where
  | nan : Dbl
  | posInf : Dbl
  | negInf : Dbl
  | fin : ℝ → Dbl

/-- Whether a double is not-a-number. -/
def Dbl.isNaN : Dbl → Prop
  | Dbl.nan => True
  | Dbl.posInf => False
  | Dbl.negInf => False
  | Dbl.fin _ => False

/-- The result of `std::abs` on a double: NaN stays NaN, both infinities give the
positive infinity. -/
def Dbl.abs : Dbl → Dbl
  | Dbl.nan => Dbl.nan
  | Dbl.posInf => Dbl.posInf
  | Dbl.negInf => Dbl.posInf
  | Dbl.fin x => Dbl.fin |x|

/-- The comparison `a < c` of a double `a` with a finite constant `c`; a
comparison with NaN is false. -/
def Dbl.ltReal : Dbl → ℝ → Prop
  | Dbl.nan, _ => False
  | Dbl.posInf, _ => False
  | Dbl.negInf, _ => True
  | Dbl.fin x, c => x < c

/-- The comparison `a > c` of a double `a` with a finite constant `c`; a
comparison with NaN is false. -/
def Dbl.gtReal : Dbl → ℝ → Prop
  | Dbl.nan, _ => False
  | Dbl.posInf, _ => True
  | Dbl.negInf, _ => False
  | Dbl.fin x, c => x > c

/-- The comparison `a <= c` of a double `a` with a finite constant `c`; a
comparison with NaN is false. -/
def Dbl.leReal : Dbl → ℝ → Prop
  | Dbl.nan, _ => False
  | Dbl.posInf, _ => False
  | Dbl.negInf, _ => True
  | Dbl.fin x, c => x ≤ c

/-- The comparison `a >= c` of a double `a` with a finite constant `c`; a
comparison with NaN is false. -/
def Dbl.geReal : Dbl → ℝ → Prop
  | Dbl.nan, _ => False
  | Dbl.posInf, _ => True
  | Dbl.negInf, _ => False
  | Dbl.fin x, c => x ≥ c

/-- The continuation test `(Tc < 42)&&((std::abs(Fs) > 1e-4)||(std::abs(Fc) > 1e-4))`
of both programs on doubles that may be NaN or infinite. -/
def loopGuardDbl (Tc Fs Fc : Dbl) : Prop :=
  Tc.ltReal 42 ∧ ((Dbl.abs Fs).gtReal 1e-4 ∨ (Dbl.abs Fc).gtReal 1e-4)

end

/-! ## The integrator loop: general facts -/

section Loop

variable {ρ : Type} (body : ℕ → Vars → Vars) (emit : ℕ → Vars → ρ)

/-- With the test false on entry the loop executes no iteration. -/
theorem runLoop_stop (fuel i : ℕ) (s : Vars) (h : ¬ loopGuard s.Tc s.Fs s.Fc) :
    runLoop body emit (fuel + 1) i s = some { final := s, steps := [], rows := [] } := by
  simp [runLoop, h]

/-- With the test true on entry the loop executes the body and goes on from the
updated variables. -/
theorem runLoop_go (fuel i : ℕ) (s : Vars) (h : loopGuard s.Tc s.Fs s.Fc) :
    runLoop body emit (fuel + 1) i s =
      (runLoop body emit fuel (i + 1) (body i s)).map fun r =>
        { final := r.final
          steps := { i := i, pre := s, post := body i s } :: r.steps
          rows := if i % 600 = 0 then emit i (body i s) :: r.rows else r.rows } := by
  rw [runLoop, if_pos h]
  dsimp only
  cases hr : runLoop body emit fuel (i + 1) (body i s) <;> simp

/-- A loop whose test holds on entry and fails after one iteration executes
exactly that iteration. -/
theorem runLoop_one (fuel i : ℕ) (s : Vars) (h : loopGuard s.Tc s.Fs s.Fc)
    (h1 : ¬ loopGuard (body i s).Tc (body i s).Fs (body i s).Fc) :
    runLoop body emit (fuel + 2) i s =
      some { final := body i s
             steps := [{ i := i, pre := s, post := body i s }]
             rows := if i % 600 = 0 then [emit i (body i s)] else [] } := by
  rw [runLoop_go body emit (fuel + 1) i s h, runLoop_stop body emit fuel (i + 1) _ h1]
  by_cases hi : i % 600 = 0 <;> simp [hi]

/-- Every executed iteration was entered with the test true and left the
variables the body computes. -/
theorem runLoop_steps (fuel i : ℕ) (s : Vars) (r : LoopResult ρ)
    (h : runLoop body emit fuel i s = some r) :
    ∀ st ∈ r.steps, loopGuard st.pre.Tc st.pre.Fs st.pre.Fc ∧ st.post = body st.i st.pre := by
  induction fuel generalizing i s r with
  | zero => simp [runLoop] at h
  | succ fuel ih =>
    by_cases hg : loopGuard s.Tc s.Fs s.Fc
    · rw [runLoop_go body emit fuel i s hg] at h
      cases hr : runLoop body emit fuel (i + 1) (body i s) with
      | none => simp [hr] at h
      | some r1 =>
        simp only [hr, Option.map_some', Option.some.injEq] at h
        subst h
        intro st hst
        simp only [List.mem_cons] at hst
        rcases hst with rfl | hst
        · exact ⟨hg, rfl⟩
        · exact ih (i + 1) (body i s) r1 hr st hst
    · rw [runLoop_stop body emit fuel i s hg] at h
      simp only [Option.some.injEq] at h
      subst h
      simp

/-- The variables after the loop are the entry variables when no iteration was
executed, and the variables left by the last iteration otherwise. -/
theorem runLoop_final (fuel i : ℕ) (s : Vars) (r : LoopResult ρ)
    (h : runLoop body emit fuel i s = some r) :
    (r.steps = [] ∧ r.final = s ∧ ¬ loopGuard s.Tc s.Fs s.Fc) ∨
      ∃ st, r.steps.getLast? = some st ∧ r.final = st.post := by
  induction fuel generalizing i s r with
  | zero => simp [runLoop] at h
  | succ fuel ih =>
    by_cases hg : loopGuard s.Tc s.Fs s.Fc
    · rw [runLoop_go body emit fuel i s hg] at h
      cases hr : runLoop body emit fuel (i + 1) (body i s) with
      | none => simp [hr] at h
      | some r1 =>
        simp only [hr, Option.map_some', Option.some.injEq] at h
        subst h
        right
        rcases ih (i + 1) (body i s) r1 hr with ⟨he, hf, _⟩ | ⟨st, hl, hf⟩
        · exact ⟨{ i := i, pre := s, post := body i s }, by simp [he], hf⟩
        · refine ⟨st, ?_, hf⟩
          cases hs : r1.steps with
          | nil => simp [hs] at hl
          | cons a l =>
            rw [hs] at hl
            simp only [List.getLast?_cons_cons]
            exact hl
    · rw [runLoop_stop body emit fuel i s hg] at h
      simp only [Option.some.injEq] at h
      subst h
      exact Or.inl ⟨rfl, rfl, hg⟩

/-- A terminated loop entered with the test true has executed its first iteration
from the entry variables. -/
theorem runLoop_head (fuel i : ℕ) (s : Vars) (r : LoopResult ρ)
    (hg : loopGuard s.Tc s.Fs s.Fc) (h : runLoop body emit fuel i s = some r) :
    ∃ rest, r.steps = { i := i, pre := s, post := body i s } :: rest := by
  cases fuel with
  | zero => simp [runLoop] at h
  | succ fuel =>
    rw [runLoop_go body emit fuel i s hg] at h
    cases hr : runLoop body emit fuel (i + 1) (body i s) with
    | none => simp [hr] at h
    | some r1 =>
      simp only [hr, Option.map_some', Option.some.injEq] at h
      subst h
      exact ⟨r1.steps, rfl⟩

/-- The test holds for variables with core temperature below 42 and both fluxes
at the sentinel value 1. -/
theorem loopGuard_sentinel (Tc : ℝ) (h : Tc < 42) : loopGuard Tc 1 1 := by
  refine ⟨h, Or.inl ?_⟩
  rw [abs_one]
  norm_num

/-- The test fails once the core temperature is 42 or more. -/
theorem not_loopGuard_of_hot (Tc Fs Fc : ℝ) (h : 42 ≤ Tc) : ¬ loopGuard Tc Fs Fc :=
  fun hg => absurd hg.1 (not_lt.mpr h)

end Loop

/-! ## Bounds on blood flow, shell fraction and core-shell flux -/

/-- The arctangent factor of `vb` lies strictly between 2.9999 and 103.0001. -/
theorem arctan_factor_bounds (x : ℝ) :
    2.9999 < (100.0 / 3.14159) * Real.arctan x + 53 ∧
      (100.0 / 3.14159) * Real.arctan x + 53 < 103.0001 := by
  have h1 := Real.neg_pi_div_two_lt_arctan x
  have h2 := Real.arctan_lt_pi_div_two x
  have hp := Real.pi_lt_d6
  constructor
  · have : -(1.5707965 : ℝ) < Real.arctan x := by linarith
    norm_num
    linarith
  · have : Real.arctan x < (1.5707965 : ℝ) := by linarith
    norm_num
    linarith

/-- From core temperature 37 upwards the blood flow exceeds 2.4. -/
theorem vb_gt (Tc Ts : ℝ) (h : 37 ≤ Tc) : 2.4 < vb Tc Ts := by
  unfold vb
  have hB := (arctan_factor_bounds (0.75 * (Ts - 34.7))).1
  have hL : (1.15 : ℝ) ≤ 2.07 * Tc - 75.44 := by linarith
  have hLB : 1.15 * 2.9999 ≤ (2.07 * Tc - 75.44) *
      ((100.0 / 3.14159) * Real.arctan (0.75 * (Ts - 34.7)) + 53) :=
    mul_le_mul hL hB.le (by norm_num) (by linarith)
  nlinarith

/-- At core temperature 37 the blood flow stays below 83. -/
theorem vb_37_lt (Ts : ℝ) : vb 37 Ts < 83 := by
  unfold vb
  have hB := (arctan_factor_bounds (0.75 * (Ts - 34.7))).2
  nlinarith

/-- For a blood flow above 2.4 the shell fraction lies strictly between 0.044 and 0.2. -/
theorem alpha_bounds (x : ℝ) (h : 2.4 < x) : 0.044 < alpha x ∧ alpha x < 0.2 := by
  unfold alpha
  have hd : (0 : ℝ) < x - 0.1386 := by linarith
  have hpos : 0 < 0.35 / (x - 0.1386) := div_pos (by norm_num) hd
  have hlt : 0.35 / (x - 0.1386) < 0.156 := by
    rw [div_lt_iff₀ hd]
    linarith
  constructor <;> linarith

/-- The default body has a surface area between 0 and 3. -/
theorem BSA_default_bounds : 0 ≤ BSA 80 185 ∧ BSA 80 185 ≤ 3 := by
  unfold BSA
  refine ⟨Real.sqrt_nonneg _, ?_⟩
  rw [Real.sqrt_le_left (by norm_num)]
  norm_num

/-- For a shell fraction between 0 and 1 the core area is between 0 and the body area. -/
theorem coreA_bounds (al A : ℝ) (h0 : 0 ≤ al) (h1 : al ≤ 1) (hA : 0 ≤ A) :
    0 ≤ coreA al A ∧ coreA al A ≤ A := by
  unfold coreA
  have hb0 : (0 : ℝ) ≤ 1 - al := by linarith
  have hb1 : 1 - al ≤ (1 : ℝ) := by linarith
  have hp0 : 0 ≤ (1 - al) ^ ((2.0 : ℝ) / 3.0) := Real.rpow_nonneg hb0 _
  have hp1 : (1 - al) ^ ((2.0 : ℝ) / 3.0) ≤ 1 := Real.rpow_le_one hb0 hb1 (by norm_num)
  constructor
  · exact mul_nonneg hp0 hA
  · calc (1 - al) ^ ((2.0 : ℝ) / 3.0) * A ≤ 1 * A := mul_le_mul_of_nonneg_right hp1 hA
      _ = A := one_mul A

/-- The core-shell flux of the default body at the initial state of the sweep is below 2100. -/
theorem fc_init_le : fc 37 35 (BSA 80 185) ≤ 2100 := by
  have hv := vb_gt 37 35 le_rfl
  have hv2 := vb_37_lt 35
  have ha := alpha_bounds (vb 37 35) hv
  have hA := BSA_default_bounds
  have hc := coreA_bounds (alpha (vb 37 35)) (BSA 80 185) (by linarith) (by linarith) hA.1
  have hprod : coreA (alpha (vb 37 35)) (BSA 80 185) * vb 37 35 ≤ 3 * 83 :=
    mul_le_mul (by linarith) hv2.le (by linarith) (by norm_num)
  have hbb : bbRad (coreA (alpha (vb 37 35)) (BSA 80 185)) 37 35 ≤ 14 := by
    unfold bbRad
    norm_num
  simp only [fc]
  nlinarith

/-! ## The sweep: general facts -/

/-- What a terminated run of one wet-bulb value consists of. -/
theorem sweepRun_spec (c : Config) (A met : ℝ) (fuel : ℕ) (tempt : ℝ) (s : Vars)
    (rec : RunRecord) (h : sweepRun c A met fuel tempt s = some rec) :
    rec.tempt = tempt ∧ rec.start = { s with Fs := 1, Fc := 1 } ∧
      runLoop (sweepStep c A met tempt) sweepRow fuel 0 rec.start = some rec.result ∧
      rec.lastRow = sweepRow rec.result.final.i2 rec.result.final ∧
      rec.data = (tempt, rec.result.final.Tc) := by
  unfold sweepRun at h
  dsimp only at h
  cases hr : runLoop (sweepStep c A met tempt) sweepRow fuel 0 { s with Fs := 1, Fc := 1 } with
  | none => simp [hr] at h
  | some r =>
    simp only [hr, Option.some.injEq] at h
    subst h
    exact ⟨rfl, rfl, hr, rfl, rfl⟩

/-- A run entered with core temperature 42 or more executes no step. -/
theorem sweepRun_zero (c : Config) (A met : ℝ) (fuel : ℕ) (tempt : ℝ) (s : Vars)
    (h : 42 ≤ s.Tc) :
    sweepRun c A met (fuel + 1) tempt s =
      some { tempt := tempt, start := { s with Fs := 1, Fc := 1 },
             result := { final := { s with Fs := 1, Fc := 1 }, steps := [], rows := [] },
             lastRow := sweepRow s.i2 { s with Fs := 1, Fc := 1 }, data := (tempt, s.Tc) } := by
  have hg : ¬ loopGuard ({ s with Fs := 1, Fc := 1 } : Vars).Tc
      ({ s with Fs := 1, Fc := 1 } : Vars).Fs ({ s with Fs := 1, Fc := 1 } : Vars).Fc :=
    not_loopGuard_of_hot _ _ _ h
  unfold sweepRun
  dsimp only
  rw [runLoop_stop (sweepStep c A met tempt) sweepRow fuel 0 { s with Fs := 1, Fc := 1 } hg]

/-- A run entered with core temperature below 42 whose first step leaves the test
false executes exactly that step. -/
theorem sweepRun_one (c : Config) (A met : ℝ) (fuel : ℕ) (tempt : ℝ) (s : Vars)
    (h : s.Tc < 42)
    (h1 : ¬ loopGuard (sweepStep c A met tempt 0 { s with Fs := 1, Fc := 1 }).Tc
      (sweepStep c A met tempt 0 { s with Fs := 1, Fc := 1 }).Fs
      (sweepStep c A met tempt 0 { s with Fs := 1, Fc := 1 }).Fc) :
    sweepRun c A met (fuel + 2) tempt s =
      some { tempt := tempt, start := { s with Fs := 1, Fc := 1 },
             result :=
               { final := sweepStep c A met tempt 0 { s with Fs := 1, Fc := 1 }
                 steps := [{ i := 0, pre := { s with Fs := 1, Fc := 1 },
                             post := sweepStep c A met tempt 0 { s with Fs := 1, Fc := 1 } }]
                 rows := [sweepRow 0 (sweepStep c A met tempt 0 { s with Fs := 1, Fc := 1 })] },
             lastRow := sweepRow 0 (sweepStep c A met tempt 0 { s with Fs := 1, Fc := 1 }),
             data := (tempt, (sweepStep c A met tempt 0 { s with Fs := 1, Fc := 1 }).Tc) } := by
  have hg : loopGuard ({ s with Fs := 1, Fc := 1 } : Vars).Tc
      ({ s with Fs := 1, Fc := 1 } : Vars).Fs ({ s with Fs := 1, Fc := 1 } : Vars).Fc :=
    loopGuard_sentinel _ h
  unfold sweepRun
  dsimp only
  rw [runLoop_one (sweepStep c A met tempt) sweepRow fuel 0 { s with Fs := 1, Fc := 1 } hg h1]
  rfl

/-- The outer loop with its test true: one run, then the loop from the next value. -/
theorem sweepFrom_go (c : Config) (A met : ℝ) (fuel k : ℕ) (tempt : ℝ) (s : Vars)
    (rec : RunRecord) (ht : tempt < c.TwH + 0.001)
    (hr : sweepRun c A met fuel tempt s = some rec) :
    sweepFrom c A met fuel (k + 1) tempt s =
      (sweepFrom c A met fuel k (tempt + 0.02) rec.result.final).map fun recs => rec :: recs := by
  rw [sweepFrom, if_pos ht, hr]
  dsimp only
  cases sweepFrom c A met fuel k (tempt + 0.02) rec.result.final <;> rfl

/-- The outer loop with its test false: no run. -/
theorem sweepFrom_end (c : Config) (A met : ℝ) (fuel k : ℕ) (tempt : ℝ) (s : Vars)
    (ht : ¬ tempt < c.TwH + 0.001) :
    sweepFrom c A met fuel (k + 1) tempt s = some [] := by
  rw [sweepFrom, if_neg ht]

/-- A terminated outer loop is empty, or its first record is a run from the entry
variables and the rest is the outer loop from the variables that run left. -/
theorem sweepFrom_cases (c : Config) (A met : ℝ) (fuel k : ℕ) (tempt : ℝ) (s : Vars)
    (recs : List RunRecord) (h : sweepFrom c A met fuel k tempt s = some recs) :
    recs = [] ∨ ∃ rec rest k1, recs = rec :: rest ∧ k = k1 + 1 ∧
      sweepRun c A met fuel tempt s = some rec ∧
      sweepFrom c A met fuel k1 (tempt + 0.02) rec.result.final = some rest := by
  cases k with
  | zero => simp [sweepFrom] at h
  | succ k =>
    by_cases ht : tempt < c.TwH + 0.001
    · cases hr : sweepRun c A met fuel tempt s with
      | none => simp [sweepFrom, ht, hr] at h
      | some rec =>
        rw [sweepFrom_go c A met fuel k tempt s rec ht hr] at h
        cases hrest : sweepFrom c A met fuel k (tempt + 0.02) rec.result.final with
        | none => simp [hrest] at h
        | some rest =>
          simp only [hrest, Option.map_some', Option.some.injEq] at h
          exact Or.inr ⟨rec, rest, k, h.symm, rfl, rfl, hrest⟩
    · rw [sweepFrom_end c A met fuel k tempt s ht] at h
      simp only [Option.some.injEq] at h
      exact Or.inl h.symm

/-- Every record of a terminated outer loop is a terminated run of its wet-bulb
value from some variables. -/
theorem sweepFrom_mem (c : Config) (A met : ℝ) (fuel k : ℕ) (tempt : ℝ) (s : Vars)
    (recs : List RunRecord) (h : sweepFrom c A met fuel k tempt s = some recs) :
    ∀ rec ∈ recs, ∃ s1, sweepRun c A met fuel rec.tempt s1 = some rec := by
  induction k generalizing tempt s recs with
  | zero => simp [sweepFrom] at h
  | succ k ih =>
    rcases sweepFrom_cases c A met fuel (k + 1) tempt s recs h with
      rfl | ⟨rec, rest, k1, rfl, hk, hr, hrest⟩
    · simp
    · obtain rfl : k = k1 := Nat.succ.inj hk
      intro r hmem
      simp only [List.mem_cons] at hmem
      rcases hmem with heq | hmem
      · have ht := (sweepRun_spec c A met fuel tempt s rec hr).1
        exact ⟨s, by rw [heq, ht]; exact hr⟩
      · exact ih (tempt + 0.02) rec.result.final rest hrest r hmem

/-- In a terminated outer loop the first run starts from the entry variables with
both fluxes set to 1, and every later run starts from the variables the run
before it left, with both fluxes set to 1. -/
theorem sweepFrom_chain (c : Config) (A met : ℝ) (fuel k : ℕ) (tempt : ℝ) (s : Vars)
    (recs : List RunRecord) (h : sweepFrom c A met fuel k tempt s = some recs) :
    (∀ r, recs.head? = some r → r.start = { s with Fs := 1, Fc := 1 }) ∧
      ∀ j r r1, recs[j]? = some r → recs[j + 1]? = some r1 →
        r1.start = { r.result.final with Fs := 1, Fc := 1 } := by
  induction k generalizing tempt s recs with
  | zero => simp [sweepFrom] at h
  | succ k ih =>
    rcases sweepFrom_cases c A met fuel (k + 1) tempt s recs h with
      rfl | ⟨rec, rest, k1, rfl, hk, hr, hrest⟩
    · simp
    · obtain rfl : k = k1 := Nat.succ.inj hk
      have ih1 := ih (tempt + 0.02) rec.result.final rest hrest
      constructor
      · intro r hhead
        simp only [List.head?_cons, Option.some.injEq] at hhead
        rw [← hhead]
        exact (sweepRun_spec c A met fuel tempt s rec hr).2.1
      · intro j r r1 hj hj1
        cases j with
        | zero =>
          simp only [List.getElem?_cons_zero, Option.some.injEq] at hj
          rw [← hj]
          simp only [List.getElem?_cons_succ] at hj1
          apply ih1.1
          rw [List.head?_eq_getElem?]
          exact hj1
        | succ j =>
          simp only [List.getElem?_cons_succ] at hj hj1
          exact ih1.2 j r r1 hj hj1

/-! ## The programs at the concrete configurations -/

/-- One step from core temperature 37 with a core flux of at least 1549600 (five
degrees for a body of 80 kg) ends at 42 or more, whatever the updated skin
temperature. -/
theorem step_Tc_hot (Ts1 F : ℝ) (hF : 1549600 ≤ F) :
    42 ≤ (37 : ℝ) + F / (3874 * ((1 - alpha (vb 37 Ts1)) * 80)) := by
  have ha := alpha_bounds (vb 37 Ts1) (vb_gt 37 Ts1 le_rfl)
  have hD : (0 : ℝ) < 3874 * ((1 - alpha (vb 37 Ts1)) * 80) := by nlinarith
  have h5 : (5 : ℝ) ≤ F / (3874 * ((1 - alpha (vb 37 Ts1)) * 80)) := by
    rw [le_div_iff₀ hD]
    nlinarith
  linarith

/-- The first step of the sweep at `hotConfig` ends with core temperature 42 or more. -/
theorem hotVars_Tc : 42 ≤ hotVars.Tc := by
  have hf := fc_init_le
  have hF : (1549600 : ℝ) ≤ 0.1 * (100000000 - fc 37 35 (BSA 80 185)) := by linarith
  exact step_Tc_hot _ _ hF

/-- The first run of the sweep at `hotConfig`: exactly one step. -/
theorem hot_run1 (fuel : ℕ) :
    sweepRun hotConfig (BSA 80 185) 100000000 (fuel + 2) 22 sweepInit = some hotRun1 := by
  have h0 : sweepInit.Tc < 42 := by
    show (37 : ℝ) < 42
    norm_num
  rw [sweepRun_one hotConfig (BSA 80 185) 100000000 fuel 22 sweepInit h0
    (not_loopGuard_of_hot _ _ _ hotVars_Tc)]
  rfl

/-- The second run of the sweep at `hotConfig`: no step. -/
theorem hot_run2 (fuel : ℕ) :
    sweepRun hotConfig (BSA 80 185) 100000000 (fuel + 1) (22 + 0.02) hotVars = some hotRun2 := by
  rw [sweepRun_zero hotConfig (BSA 80 185) 100000000 fuel (22 + 0.02) hotVars hotVars_Tc]
  rfl

/-- The sweep at `hotConfig` terminates with the two records `hotRun1`, `hotRun2`. -/
theorem hot_sweep : sweepMain hotConfig 3 2 = some [hotRun1, hotRun2] := by
  have hm : metabolicRate hotConfig.met hotConfig.m hotConfig.h hotConfig.a hotConfig.gend
      = 100000000 := by
    simp [metabolicRate, hotConfig]
  have ht0 : (22 : ℝ) < hotConfig.TwH + 0.001 := by
    show (22 : ℝ) < 22.02 + 0.001
    norm_num
  have ht1 : (22 : ℝ) + 0.02 < hotConfig.TwH + 0.001 := by
    show (22 : ℝ) + 0.02 < 22.02 + 0.001
    norm_num
  have ht2 : ¬ ((22 : ℝ) + 0.02 + 0.02 < hotConfig.TwH + 0.001) := by
    show ¬ ((22 : ℝ) + 0.02 + 0.02 < 22.02 + 0.001)
    norm_num
  show sweepFrom hotConfig (BSA 80 185)
    (metabolicRate hotConfig.met hotConfig.m hotConfig.h hotConfig.a hotConfig.gend) 2 3 22
    sweepInit = some [hotRun1, hotRun2]
  have e3 : sweepFrom hotConfig (BSA 80 185) 100000000 2 1 (22 + 0.02 + 0.02)
      hotRun2.result.final = some [] :=
    sweepFrom_end hotConfig _ _ 2 0 (22 + 0.02 + 0.02) _ ht2
  have e2 : sweepFrom hotConfig (BSA 80 185) 100000000 2 2 (22 + 0.02)
      hotRun1.result.final = some [hotRun2] := by
    have h := sweepFrom_go hotConfig (BSA 80 185) 100000000 2 1 (22 + 0.02) hotVars hotRun2 ht1
      (hot_run2 1)
    rw [e3] at h
    exact h
  rw [hm, sweepFrom_go hotConfig _ _ 2 2 22 sweepInit hotRun1 ht0 (hot_run1 0), e2]
  rfl

/-- The core-shell flux of the default body at the initial state of the time
series is below 2000. -/
theorem fc_time_init_le : fc 36.5 31.3 (BSA 80 185) ≤ 2000 := by
  have hB := arctan_factor_bounds (0.75 * (31.3 - 34.7))
  have hv : 0.2414 < vb 36.5 31.3 ∧ vb 36.5 31.3 < 8.3 := by
    unfold vb
    constructor <;> nlinarith
  have hd : (0.1028 : ℝ) < vb 36.5 31.3 - 0.1386 := by linarith
  have hq0 : 0 < 0.35 / (vb 36.5 31.3 - 0.1386) := div_pos (by norm_num) (by linarith)
  have hq1 : 0.35 / (vb 36.5 31.3 - 0.1386) < 3.41 := by
    rw [div_lt_iff₀ (by linarith)]
    nlinarith
  have habs : |1 - alpha (vb 36.5 31.3)| ≤ 3 := by
    unfold alpha
    rw [abs_le]
    constructor <;> linarith
  have hA := BSA_default_bounds
  have hpow : |(1 - alpha (vb 36.5 31.3)) ^ ((2.0 : ℝ) / 3.0)| ≤ 3 := by
    calc |(1 - alpha (vb 36.5 31.3)) ^ ((2.0 : ℝ) / 3.0)|
        ≤ |1 - alpha (vb 36.5 31.3)| ^ ((2.0 : ℝ) / 3.0) := Real.abs_rpow_le_abs_rpow _ _
      _ ≤ (3 : ℝ) ^ ((2.0 : ℝ) / 3.0) :=
          Real.rpow_le_rpow (abs_nonneg _) habs (by norm_num)
      _ ≤ (3 : ℝ) ^ (1 : ℝ) :=
          Real.rpow_le_rpow_of_exponent_le (by norm_num) (by norm_num)
      _ = 3 := Real.rpow_one 3
  have hc : coreA (alpha (vb 36.5 31.3)) (BSA 80 185) ≤ 9 := by
    unfold coreA
    have h1 := le_abs_self ((1 - alpha (vb 36.5 31.3)) ^ ((2.0 : ℝ) / 3.0))
    have h2 := neg_abs_le ((1 - alpha (vb 36.5 31.3)) ^ ((2.0 : ℝ) / 3.0))
    nlinarith [hA.1, hA.2]
  have hprod : coreA (alpha (vb 36.5 31.3)) (BSA 80 185) * vb 36.5 31.3 ≤ 9 * 8.3 := by
    by_cases hneg : coreA (alpha (vb 36.5 31.3)) (BSA 80 185) ≤ 0
    · have : coreA (alpha (vb 36.5 31.3)) (BSA 80 185) * vb 36.5 31.3 ≤ 0 :=
        mul_nonpos_of_nonpos_of_nonneg hneg (by linarith)
      linarith
    · exact mul_le_mul hc hv.2.le (by linarith) (by norm_num)
  have hbb : bbRad (coreA (alpha (vb 36.5 31.3)) (BSA 80 185)) 36.5 31.3 ≤ 40 := by
    unfold bbRad
    norm_num
  simp only [fc]
  nlinarith

/-- The first step of the time series at `hotTimeConfig` ends with core
temperature 42 or more. -/
theorem hotTimeVars_Tc : 42 ≤ hotTimeVars.Tc := by
  have hf := fc_time_init_le
  show (42 : ℝ) ≤ 36.5 + 0.1 * (100000000 - fc 36.5 31.3 (BSA 80 185)) / (0.9 * 80 * 3874)
  have h6 : (6 : ℝ) ≤ 0.1 * (100000000 - fc 36.5 31.3 (BSA 80 185)) / (0.9 * 80 * 3874) := by
    rw [le_div_iff₀ (by norm_num)]
    linarith
  linarith

/-- The time series at `hotTimeConfig` terminates after exactly one step. -/
theorem hot_time : timeMain hotTimeConfig 2 =
    some { final := hotTimeVars, steps := [{ i := 0, pre := timeInit, post := hotTimeVars }],
           rows := [timeRow 0 hotTimeVars] } := by
  have hm : metabolicRate hotTimeConfig.met hotTimeConfig.m hotTimeConfig.h hotTimeConfig.a
      hotTimeConfig.gend = 100000000 := by
    simp [metabolicRate, hotTimeConfig]
  have hg : loopGuard timeInit.Tc timeInit.Fs timeInit.Fc := by
    apply loopGuard_sentinel
    show (36.5 : ℝ) < 42
    norm_num
  show runLoop (timeStep hotTimeConfig (BSA 80 185)
    (metabolicRate hotTimeConfig.met hotTimeConfig.m hotTimeConfig.h hotTimeConfig.a
      hotTimeConfig.gend)) timeRow 2 0 timeInit = _
  rw [hm, runLoop_one _ _ 0 0 timeInit hg (not_loopGuard_of_hot _ _ _ hotTimeVars_Tc)]
  rfl

/-- The core-shell flux vanishes when core and skin have the same temperature. -/
theorem fc_same (T A : ℝ) : fc T T A = 0 := by
  simp [fc, bbRad]

/-- Both interface fluxes of the first step at `stillConfig` from `stillVars`
are below the tolerance. -/
theorem still_fluxes (tempt : ℝ) :
    |(sweepStep stillConfig (BSA 80 185) 0.00001 tempt 0
        { stillVars with Fs := 1, Fc := 1 }).Fs| < 1e-4 ∧
      |(sweepStep stillConfig (BSA 80 185) 0.00001 tempt 0
        { stillVars with Fs := 1, Fc := 1 }).Fc| < 1e-4 := by
  have h1 : (sweepStep stillConfig (BSA 80 185) 0.00001 tempt 0
      { stillVars with Fs := 1, Fc := 1 }).Fs = 0 := by
    simp [sweepStep, stillConfig, stillVars, conv, evap, solarRad, bbRad, fc_same]
  have h2 : (sweepStep stillConfig (BSA 80 185) 0.00001 tempt 0
      { stillVars with Fs := 1, Fc := 1 }).Fc = 0.000001 := by
    simp only [sweepStep, stillVars, fc_same]
    norm_num
  rw [h1, h2]
  constructor
  · rw [abs_zero]
    norm_num
  · rw [abs_of_pos (by norm_num)]
    norm_num

/-- Every record of a terminated sweep holds a terminated inner loop of the sweep
step for its wet-bulb value, entered with both fluxes at 1. -/
theorem sweepMain_mem (c : Config) (outerFuel fuel : ℕ) (recs : List RunRecord)
    (h : sweepMain c outerFuel fuel = some recs) :
    ∀ rec ∈ recs, rec.start.Fs = 1 ∧ rec.start.Fc = 1 ∧
      runLoop (sweepStep c (BSA c.m c.h) (metabolicRate c.met c.m c.h c.a c.gend) rec.tempt)
        sweepRow fuel 0 rec.start = some rec.result := by
  intro rec hmem
  obtain ⟨s1, hs1⟩ := sweepFrom_mem c _ _ fuel outerFuel c.TwL sweepInit recs h rec hmem
  obtain ⟨_, hstart, hloop, _, _⟩ := sweepRun_spec c _ _ fuel rec.tempt s1 rec hs1
  refine ⟨?_, ?_, hloop⟩
  · rw [hstart]
  · rw [hstart]

/-- A terminated loop entered with the test false has executed no iteration. -/
theorem runLoop_steps_nil {ρ : Type} (body : ℕ → Vars → Vars) (emit : ℕ → Vars → ρ)
    (fuel i : ℕ) (s : Vars) (r : LoopResult ρ) (hg : ¬ loopGuard s.Tc s.Fs s.Fc)
    (h : runLoop body emit fuel i s = some r) : r.steps = [] ∧ r.final = s := by
  cases fuel with
  | zero => simp [runLoop] at h
  | succ fuel =>
    rw [runLoop_stop body emit fuel i s hg] at h
    simp only [Option.some.injEq] at h
    subst h
    exact ⟨rfl, rfl⟩

/-- The first run of a terminated sweep starts at core temperature 37. -/
theorem sweep_start_head (c : Config) (outerFuel fuel : ℕ) (recs : List RunRecord)
    (h : sweepMain c outerFuel fuel = some recs) :
    ∀ rec, recs.head? = some rec → rec.start.Tc = 37 := by
  intro rec hrec
  rw [(sweepFrom_chain c _ _ fuel outerFuel c.TwL sweepInit recs h).1 rec hrec]
  rfl

/-! ## The claims -/

/-- C1 (as stated, refuted): it is not the case that every run of a terminated
sweep starts from core temperature 37, skin temperature 35 and water balance 0.
At `hotConfig` the run for the second wet-bulb value starts from the core
temperature the first run ended with, which is 42 or more. -/
theorem sweep_reset_counterexample :
    ¬ ∀ (c : Config) (outerFuel fuel : ℕ) (recs : List RunRecord),
      sweepMain c outerFuel fuel = some recs →
        ∀ r ∈ recs, r.start.Tc = 37 ∧ r.start.Ts = 35 ∧ r.start.W = 0 := by
  intro hall
  have h2 := (hall hotConfig 3 2 [hotRun1, hotRun2] hot_sweep hotRun2 (by simp)).1
  have hT : (42 : ℝ) ≤ hotRun2.start.Tc := hotVars_Tc
  rw [h2] at hT
  norm_num at hT

/-- C1 (amended): in a terminated sweep the run for the first wet-bulb value starts
from core temperature 37, skin temperature 35 and water balance 0, and the run
for every later value starts from the core temperature, skin temperature and
water balance the run for the previous value ended with. -/
theorem sweep_state_carried_over (c : Config) (outerFuel fuel : ℕ) (recs : List RunRecord)
    (h : sweepMain c outerFuel fuel = some recs) :
    (∀ r, recs.head? = some r → r.start.Tc = 37 ∧ r.start.Ts = 35 ∧ r.start.W = 0) ∧
      ∀ j r r1, recs[j]? = some r → recs[j + 1]? = some r1 →
        r1.start.Tc = r.result.final.Tc ∧ r1.start.Ts = r.result.final.Ts ∧
          r1.start.W = r.result.final.W := by
  have hc := sweepFrom_chain c _ _ fuel outerFuel c.TwL sweepInit recs h
  constructor
  · intro r hr
    rw [hc.1 r hr]
    exact ⟨rfl, rfl, rfl⟩
  · intro j r r1 hj hj1
    rw [hc.2 j r r1 hj hj1]
    exact ⟨rfl, rfl, rfl⟩

/-- C1 (amended), at `hotConfig`: the first run starts at 37, the second at the
core temperature the first run ended with. -/
theorem sweep_state_carried_over_witness :
    sweepMain hotConfig 3 2 = some [hotRun1, hotRun2] ∧ hotRun1.start.Tc = 37 ∧
      hotRun2.start.Tc = hotRun1.result.final.Tc :=
  ⟨hot_sweep,
    ((sweep_state_carried_over hotConfig 3 2 [hotRun1, hotRun2] hot_sweep).1 hotRun1 rfl).1,
    ((sweep_state_carried_over hotConfig 3 2 [hotRun1, hotRun2] hot_sweep).2 0 hotRun1 hotRun2
      rfl rfl).1⟩

/-- C2 (as stated, refuted): with both fluxes exactly at 1e-4 and core temperature
0 the loop stops although neither flux is strictly below 1e-4. -/
theorem stop_test_strict_counterexample :
    ¬ ∀ Tc Fs Fc : ℝ,
      (¬ loopGuard Tc Fs Fc ↔ (Tc ≥ 42 ∨ (|Fs| < 1e-4 ∧ |Fc| < 1e-4))) := by
  intro h
  have hstop : ¬ loopGuard 0 1e-4 1e-4 := by
    unfold loopGuard
    rw [abs_of_pos (by norm_num)]
    intro hg
    rcases hg.2 with h1 | h1 <;> exact lt_irrefl _ h1
  rcases (h 0 1e-4 1e-4).mp hstop with h1 | h1
  · norm_num at h1
  · rw [abs_of_pos (by norm_num)] at h1
    exact lt_irrefl _ h1.1

/-- On real numbers the test of the integrator loop fails exactly when the core
temperature is 42 or more, or both fluxes have absolute value at most 1e-4. -/
theorem stop_test_iff (Tc Fs Fc : ℝ) :
    ¬ loopGuard Tc Fs Fc ↔ (Tc ≥ 42 ∨ (|Fs| ≤ 1e-4 ∧ |Fc| ≤ 1e-4)) := by
  unfold loopGuard
  rw [not_and_or, not_or, not_lt, not_lt, not_lt]

/-- C2 (amended): on doubles, which may be NaN or infinite, the stop test of the
integrator loop (the negation of the continuation test of both programs) holds
exactly when the core temperature is NaN or is 42 or more, or each of the two
fluxes is NaN or has absolute value at most 1e-4.  On real numbers the test on
doubles is the test on reals, and the stop test holds exactly when the core
temperature is 42 or more, or both fluxes have absolute value at most 1e-4. -/
theorem stop_test_double :
    (∀ Tc Fs Fc : Dbl, ¬ loopGuardDbl Tc Fs Fc ↔
      ((Tc.isNaN ∨ Tc.geReal 42) ∨
        ((Fs.isNaN ∨ (Dbl.abs Fs).leReal 1e-4) ∧ (Fc.isNaN ∨ (Dbl.abs Fc).leReal 1e-4)))) ∧
    (∀ a b c : ℝ, loopGuardDbl (Dbl.fin a) (Dbl.fin b) (Dbl.fin c) ↔ loopGuard a b c) ∧
    (∀ a b c : ℝ, ¬ loopGuard a b c ↔ (a ≥ 42 ∨ (|b| ≤ 1e-4 ∧ |c| ≤ 1e-4))) := by
  refine ⟨?_, fun a b c => Iff.rfl, stop_test_iff⟩
  intro Tc Fs Fc
  cases Tc <;> cases Fs <;> cases Fc <;>
    simp only [loopGuardDbl, Dbl.isNaN, Dbl.abs, Dbl.ltReal, Dbl.gtReal, Dbl.leReal,
      Dbl.geReal, not_and_or, not_or, not_lt, not_false_eq_true, not_true_eq_false,
      true_or, or_true, false_or, or_false, true_and, and_true, false_and, and_false,
      gt_iff_lt, ge_iff_le]

/-- C3 (the code at the failing input): the sweep at `hotConfig` terminates with two
runs; the run for the second wet-bulb value is entered with both fluxes at the
sentinel 1 and with the core temperature the first run ended with, which is 42
or more, and it executes no step.  So not every run of a terminated sweep
executes at least one step. -/
theorem sweep_second_run_no_step :
    sweepMain hotConfig 3 2 = some [hotRun1, hotRun2] ∧
      hotRun2.start.Fs = 1 ∧ hotRun2.start.Fc = 1 ∧
      hotRun2.start.Tc = hotRun1.result.final.Tc ∧ 42 ≤ hotRun2.start.Tc ∧
      hotRun2.result.steps = [] ∧
      ¬ ∀ (c : Config) (outerFuel fuel : ℕ) (recs : List RunRecord),
        sweepMain c outerFuel fuel = some recs →
          ∀ rec ∈ recs, 1 ≤ rec.result.steps.length := by
  refine ⟨hot_sweep, rfl, rfl, rfl, hotVars_Tc, rfl, ?_⟩
  intro hall
  have h2 := hall hotConfig 3 2 [hotRun1, hotRun2] hot_sweep hotRun2 (by simp)
  simp [hotRun2] at h2

/-- Runs entered below 42: the loop test holds on entry of the time-series run, and a
terminated time-series run has executed at least one step; in a terminated sweep
the run for the first wet-bulb value and every run entered with core temperature
below 42 have executed at least one step, and a run entered with core
temperature 42 or more has executed none. -/
theorem run_steps_at_least_once :
    (loopGuard timeInit.Tc timeInit.Fs timeInit.Fc ∧
      ∀ (c : TimeConfig) (fuel : ℕ) (r : LoopResult TimeRow),
        timeMain c fuel = some r → 1 ≤ r.steps.length) ∧
    ∀ (c : Config) (outerFuel fuel : ℕ) (recs : List RunRecord),
      sweepMain c outerFuel fuel = some recs →
        (∀ rec, recs.head? = some rec → 1 ≤ rec.result.steps.length) ∧
        (∀ rec ∈ recs, rec.start.Tc < 42 → 1 ≤ rec.result.steps.length) ∧
        (∀ rec ∈ recs, 42 ≤ rec.start.Tc → rec.result.steps = []) := by
  have hg : loopGuard timeInit.Tc timeInit.Fs timeInit.Fc := by
    apply loopGuard_sentinel
    show (36.5 : ℝ) < 42
    norm_num
  refine ⟨⟨hg, ?_⟩, ?_⟩
  · intro c fuel r h
    obtain ⟨rest, hrest⟩ := runLoop_head _ _ fuel 0 timeInit r hg h
    rw [hrest]
    simp
  · intro c outerFuel fuel recs h
    have hmem := sweepMain_mem c outerFuel fuel recs h
    have hlt : ∀ rec ∈ recs, rec.start.Tc < 42 → 1 ≤ rec.result.steps.length := by
      intro rec hrec hT
      obtain ⟨hFs, hFc, hloop⟩ := hmem rec hrec
      have hg1 : loopGuard rec.start.Tc rec.start.Fs rec.start.Fc := by
        rw [hFs, hFc]
        exact loopGuard_sentinel _ hT
      obtain ⟨rest, hrest⟩ := runLoop_head _ _ fuel 0 rec.start rec.result hg1 hloop
      rw [hrest]
      simp
    refine ⟨?_, hlt, ?_⟩
    · intro rec hhead
      have hT := ((sweep_start_head c outerFuel fuel recs h) rec hhead)
      apply hlt rec (List.mem_of_mem_head? hhead)
      rw [hT]
      norm_num
    · intro rec hrec hT
      obtain ⟨_, _, hloop⟩ := hmem rec hrec
      exact (runLoop_steps_nil _ _ fuel 0 rec.start rec.result
        (not_loopGuard_of_hot _ _ _ hT) hloop).1

/-- The step counts at `hotTimeConfig` and `hotConfig`: the terminated time series
and the first run of the sweep have one step, the second run of the sweep,
entered with core temperature 42 or more, has none. -/
theorem run_steps_at_least_once_witness :
    timeMain hotTimeConfig 2 =
        some { final := hotTimeVars, steps := [{ i := 0, pre := timeInit, post := hotTimeVars }],
               rows := [timeRow 0 hotTimeVars] } ∧
      1 ≤ ([{ i := 0, pre := timeInit, post := hotTimeVars }] : List StepRec).length ∧
      sweepMain hotConfig 3 2 = some [hotRun1, hotRun2] ∧
      1 ≤ hotRun1.result.steps.length ∧ hotRun2.result.steps = [] :=
  ⟨hot_time, run_steps_at_least_once.1.2 hotTimeConfig 2 _ hot_time, hot_sweep,
    (run_steps_at_least_once.2 hotConfig 3 2 _ hot_sweep).1 hotRun1 rfl,
    (run_steps_at_least_once.2 hotConfig 3 2 _ hot_sweep).2.2 hotRun2 (by simp) hotVars_Tc⟩

/-- C4: in a terminated integrator loop (of either program, `body` being its step)
entered with core temperature below 42, every executed step starts from
variables with core temperature below 42; and when the loop ends with core
temperature 42 or more, that state is the result of the last executed step,
which started from core temperature below 42. -/
theorem overshoot_at_most_one_step {ρ : Type} (body : ℕ → Vars → Vars)
    (emit : ℕ → Vars → ρ) (fuel i : ℕ) (s : Vars) (r : LoopResult ρ) (hs : s.Tc < 42)
    (h : runLoop body emit fuel i s = some r) :
    (∀ st ∈ r.steps, st.pre.Tc < 42 ∧ st.post = body st.i st.pre) ∧
      (42 ≤ r.final.Tc → ∃ st, r.steps.getLast? = some st ∧ st.pre.Tc < 42 ∧
        st.post = body st.i st.pre ∧ r.final = st.post) := by
  have hsteps := runLoop_steps body emit fuel i s r h
  refine ⟨fun st hst => ⟨(hsteps st hst).1.1, (hsteps st hst).2⟩, ?_⟩
  intro hhot
  rcases runLoop_final body emit fuel i s r h with ⟨_, hf, _⟩ | ⟨st, hl, hf⟩
  · rw [hf] at hhot
    exact absurd hs (not_lt.mpr hhot)
  · have hmem := List.mem_of_getLast?_eq_some hl
    exact ⟨st, hl, (hsteps st hmem).1.1, (hsteps st hmem).2, hf⟩

/-- C4, at `hotConfig`: the first run of the sweep starts at 37, ends at 42 or
more, and its final state is the result of its last step. -/
theorem overshoot_at_most_one_step_witness :
    sweepStart.Tc < 42 ∧ 42 ≤ hotRun1.result.final.Tc ∧
      ∃ st, hotRun1.result.steps.getLast? = some st ∧ st.pre.Tc < 42 ∧
        st.post = sweepStep hotConfig (BSA 80 185) 100000000 22 st.i st.pre ∧
        hotRun1.result.final = st.post :=
  have h0 : sweepStart.Tc < 42 := by
    show (37 : ℝ) < 42
    norm_num
  ⟨h0, hotVars_Tc,
    (overshoot_at_most_one_step (sweepStep hotConfig (BSA 80 185) 100000000 22) sweepRow 2 0
      sweepStart hotRun1.result h0
      (sweepRun_spec hotConfig (BSA 80 185) 100000000 2 22 sweepInit hotRun1 (hot_run1 0)).2.2.1).2
      hotVars_Tc⟩

/-- C5: a run of the sweep entered with core temperature below 42 whose first
step computes both interface fluxes with absolute value below 1e-4 terminates
(with any fuel of at least 2) after exactly one step, and the variables it
reports, in the row written inside the loop, in the closing row and in the data
row, are those after that one step. -/
theorem first_step_equilibrium (c : Config) (A met tempt : ℝ) (s : Vars) (fuel : ℕ)
    (hs : s.Tc < 42)
    (hFs : |(sweepStep c A met tempt 0 { s with Fs := 1, Fc := 1 }).Fs| < 1e-4)
    (hFc : |(sweepStep c A met tempt 0 { s with Fs := 1, Fc := 1 }).Fc| < 1e-4) :
    sweepRun c A met (fuel + 2) tempt s =
      some { tempt := tempt, start := { s with Fs := 1, Fc := 1 },
             result :=
               { final := sweepStep c A met tempt 0 { s with Fs := 1, Fc := 1 }
                 steps := [{ i := 0, pre := { s with Fs := 1, Fc := 1 },
                             post := sweepStep c A met tempt 0 { s with Fs := 1, Fc := 1 } }]
                 rows := [sweepRow 0 (sweepStep c A met tempt 0 { s with Fs := 1, Fc := 1 })] },
             lastRow := sweepRow 0 (sweepStep c A met tempt 0 { s with Fs := 1, Fc := 1 }),
             data := (tempt, (sweepStep c A met tempt 0 { s with Fs := 1, Fc := 1 }).Tc) } := by
  apply sweepRun_one c A met fuel tempt s hs
  intro hg
  rcases hg.2 with h1 | h1
  · exact absurd hFs (not_lt.mpr h1.le)
  · exact absurd hFc (not_lt.mpr h1.le)

/-- C5, at `stillConfig` from core and skin temperature 35: the run for wet-bulb
value 22 terminates after one step. -/
theorem first_step_equilibrium_witness :
    stillVars.Tc < 42 ∧
      (sweepRun stillConfig (BSA 80 185) 0.00001 2 22 stillVars).map
          (fun rec => rec.result.steps.length) = some 1 ∧
      (sweepRun stillConfig (BSA 80 185) 0.00001 2 22 stillVars).map
          (fun rec => rec.data.2) =
        some (sweepStep stillConfig (BSA 80 185) 0.00001 22 0
          { stillVars with Fs := 1, Fc := 1 }).Tc :=
  have h0 : stillVars.Tc < 42 := by
    show (35 : ℝ) < 42
    norm_num
  have h := first_step_equilibrium stillConfig (BSA 80 185) 0.00001 22 stillVars 0 h0
    (still_fluxes 22).1 (still_fluxes 22).2
  ⟨h0, by rw [h]; rfl, by rw [h]; rfl⟩

/-- C6: the metabolic heat of a run is the configured override when that is not
0, and otherwise `0.0484*(10*m + 6.2*h - 5*a + k)` with `k = 5` for the sex
character `m` and `k = -161` for any other; in a terminated sweep every executed
step of every run stores this one value in `M` and computes its core flux
from it. -/
theorem metabolic_rate_constant :
    (∀ (met m h a : ℝ) (gend : Char),
      metabolicRate met m h a gend =
        if met ≠ 0 then met
        else 0.0484 * (10 * m + 6.2 * h - 5 * a + (if gend = 'm' then 5 else -161))) ∧
    ∀ (c : Config) (outerFuel fuel : ℕ) (recs : List RunRecord),
      sweepMain c outerFuel fuel = some recs →
        ∀ rec ∈ recs, ∀ st ∈ rec.result.steps,
          st.post.M = metabolicRate c.met c.m c.h c.a c.gend ∧
          st.post.Fc = 0.1 * (metabolicRate c.met c.m c.h c.a c.gend
            - fc st.pre.Tc st.pre.Ts (BSA c.m c.h)) := by
  constructor
  · intro met m h a gend
    unfold metabolicRate REE
    by_cases hmet : met = 0
    · by_cases hg : gend = 'm'
      · simp only [hmet, hg, if_true, ne_eq, not_true_eq_false, if_false]
        norm_num
      · simp only [hmet, hg, if_true, ne_eq, not_true_eq_false, if_false]
        norm_num
        ring
    · simp [hmet]
  · intro c outerFuel fuel recs h rec hrec st hst
    obtain ⟨_, _, hloop⟩ := sweepMain_mem c outerFuel fuel recs h rec hrec
    have hpost := (runLoop_steps _ _ fuel 0 rec.start rec.result hloop st hst).2
    rw [hpost]
    exact ⟨rfl, rfl⟩

/-- C6, at `hotConfig` (override 100000000) and for the default body without
override: the value of the metabolic heat, and the value stored by the one step
of the first run of the sweep. -/
theorem metabolic_rate_constant_witness :
    metabolicRate 0 80 185 25 'm' = 0.0484 * (10 * 80 + 6.2 * 185 - 5 * 25 + 5) ∧
      metabolicRate 0 60 165 30 'f' = 0.0484 * (10 * 60 + 6.2 * 165 - 5 * 30 + -161) ∧
      hotVars.M = metabolicRate hotConfig.met hotConfig.m hotConfig.h hotConfig.a
        hotConfig.gend :=
  ⟨by rw [metabolic_rate_constant.1]; simp,
    by rw [metabolic_rate_constant.1]; simp,
    (metabolic_rate_constant.2 hotConfig 3 2 [hotRun1, hotRun2] hot_sweep hotRun1 (by simp)
      { i := 0, pre := sweepStart, post := hotVars } (by simp [hotRun1])).1⟩

/-- C7 (as stated, refuted): `REE(80, 185, 25, male)` is not within 0.01 of 88.46
(nor is `REE(60, 165, 30, female)` within 0.01 of 63.52). -/
theorem REE_examples_counterexample :
    ¬ (|REE 80 185 25 true - 88.46| ≤ 0.01 ∧ |REE 60 165 30 false - 63.52| ≤ 0.01) := by
  intro h
  have h1 := (abs_le.mp h.1).1
  simp only [REE, if_true] at h1
  norm_num at h1

/-- C7 (amended): `REE(80, 185, 25, male)` is 88.4268, within 0.04 of 88.46 and
not within 0.01 of it, and `REE(60, 165, 30, female)` is 63.5008, within 0.02 of
63.52 and not within 0.01 of it. -/
theorem REE_examples :
    REE 80 185 25 true = 88.4268 ∧ REE 60 165 30 false = 63.5008 ∧
      |REE 80 185 25 true - 88.46| ≤ 0.04 ∧ ¬ |REE 80 185 25 true - 88.46| ≤ 0.01 ∧
      |REE 60 165 30 false - 63.52| ≤ 0.02 ∧ ¬ |REE 60 165 30 false - 63.52| ≤ 0.01 := by
  have hm : REE 80 185 25 true = 88.4268 := by
    simp only [REE, if_true]
    norm_num
  have hf : REE 60 165 30 false = 63.5008 := by
    simp only [REE, Bool.false_eq_true, if_false]
    norm_num
  have am : |(88.4268 : ℝ) - 88.46| = 0.0332 := by
    rw [abs_of_neg (by norm_num)]
    norm_num
  have af : |(63.5008 : ℝ) - 63.52| = 0.0192 := by
    rw [abs_of_neg (by norm_num)]
    norm_num
  rw [hm, hf, am, af]
  norm_num

/-- C8: `BSA(80, 185)` is within 0.001 of 2.0276. -/
theorem BSA_example : |BSA 80 185 - 2.0276| ≤ 0.001 := by
  unfold BSA
  rw [abs_le]
  constructor
  · have h : (2.0266 : ℝ) ≤ Real.sqrt (80 * 185 / 3600) := by
      rw [Real.le_sqrt' (by norm_num)]
      norm_num
    linarith
  · have h : Real.sqrt (80 * 185 / 3600) ≤ (2.0286 : ℝ) := by
      rw [Real.sqrt_le_left (by norm_num)]
      norm_num
    linarith

/-- C9: `BSA` is strictly increasing in the mass for a fixed positive height and
strictly increasing in the height for a fixed positive mass, on positive inputs. -/
theorem BSA_strictly_increasing :
    (∀ m1 m2 h : ℝ, 0 < m1 → m1 < m2 → 0 < h → BSA m1 h < BSA m2 h) ∧
      (∀ h1 h2 m : ℝ, 0 < h1 → h1 < h2 → 0 < m → BSA m h1 < BSA m h2) := by
  constructor
  · intro m1 m2 h hm1 hm hh
    unfold BSA
    apply Real.sqrt_lt_sqrt
    · positivity
    · have hlt : m1 * h < m2 * h := mul_lt_mul_of_pos_right hm hh
      linarith
  · intro h1 h2 m hh1 hh hm
    unfold BSA
    apply Real.sqrt_lt_sqrt
    · positivity
    · have hlt : m * h1 < m * h2 := mul_lt_mul_of_pos_left hh hm
      linarith

/-- C9, at masses 60 and 80 with height 170 and heights 170 and 185 with mass 80. -/
theorem BSA_strictly_increasing_witness :
    BSA 60 170 < BSA 80 170 ∧ BSA 80 170 < BSA 80 185 :=
  ⟨BSA_strictly_increasing.1 60 80 170 (by norm_num) (by norm_num) (by norm_num),
    BSA_strictly_increasing.2 170 185 80 (by norm_num) (by norm_num) (by norm_num)⟩

/-- C10: `satVP` is strictly increasing on the interval from 0 to 50. -/
theorem satVP_strictly_increasing (T1 T2 : ℝ) (h0 : 0 ≤ T1) (h : T1 < T2) (_h50 : T2 ≤ 50) :
    satVP T1 < satVP T2 := by
  unfold satVP
  have h1 : (0 : ℝ) < 237.3 + T1 := by linarith
  have h2 : (0 : ℝ) < 237.3 + T2 := by linarith
  have key : (17.27 * T1) / (237.3 + T1) < (17.27 * T2) / (237.3 + T2) := by
    rw [div_lt_div_iff₀ h1 h2]
    nlinarith
  have hexp := Real.exp_lt_exp.mpr key
  linarith

/-- C10, at the two ends of the interval and at 30 and 35. -/
theorem satVP_strictly_increasing_witness : satVP 0 < satVP 50 ∧ satVP 30 < satVP 35 :=
  ⟨satVP_strictly_increasing 0 50 (by norm_num) (by norm_num) (by norm_num),
    satVP_strictly_increasing 30 35 (by norm_num) (by norm_num) (by norm_num)⟩

/-- The quotient of the blood flow by its factor linear in the core temperature
is a function of the skin temperature alone. -/
theorem vb_div (Tc Ts : ℝ) (h : 2.07 * Tc - 75.44 ≠ 0) :
    vb Tc Ts / (2.07 * Tc - 75.44) =
      0.7 * ((100.0 / 3.14159) * Real.arctan (0.75 * (Ts - 34.7)) + 53) := by
  unfold vb
  field_simp
  ring

/-- The core area is positive for a shell fraction below 1 and a positive body area. -/
theorem coreA_pos (al A : ℝ) (h1 : al < 1) (hA : 0 < A) : 0 < coreA al A := by
  unfold coreA
  exact mul_pos (Real.rpow_pos_of_pos (by linarith) _) hA

/-- The black-body flux has the sign of the temperature difference for
temperatures above absolute zero. -/
theorem bbRad_pos (A T Ts : ℝ) (hTs : -273.15 < Ts) (h : Ts < T) : 0 < bbRad A T Ts := by
  unfold bbRad
  have h4 : (Ts + 273.15) ^ 4 < (T + 273.15) ^ 4 :=
    pow_lt_pow_left₀ (by linarith) (by linarith) (by norm_num)
  have hpos : (0 : ℝ) < (T + 273.15) ^ 4 - (Ts + 273.15) ^ 4 := by linarith
  exact mul_pos (by norm_num) hpos

/-- The black-body flux changes sign when its two temperatures are exchanged. -/
theorem bbRad_swap (A B T Ts : ℝ) : bbRad A T Ts = -bbRad B Ts T := by
  unfold bbRad
  ring

/-- C11: `solarRad` is 0 for every area and reflectivity, and in every step of
either program the stored solar term is 0 and the skin-interface flux is the
sum of the other four terms (scaled by 0.1 in the sweep). -/
theorem solar_term_zero :
    (∀ A refl : ℝ, solarRad A refl = 0) ∧
    (∀ (c : Config) (A met tempt : ℝ) (i : ℕ) (s : Vars),
      (sweepStep c A met tempt i s).Rs = 0 ∧
      (sweepStep c A met tempt i s).Fs =
        0.1 * (conv c.v c.T s.Ts + evap c.v c.T s.Ts tempt + bbRad A c.T s.Ts
          + fc s.Tc s.Ts A)) ∧
    (∀ (c : TimeConfig) (A met : ℝ) (i : ℕ) (s : Vars),
      (timeStep c A met i s).Rs = 0 ∧
      (timeStep c A met i s).Fs =
        conv c.v c.T s.Ts + evap c.v c.T s.Ts c.Tw + bbRad A c.T s.Ts + fc s.Tc s.Ts A) := by
  have h0 : ∀ A refl : ℝ, solarRad A refl = 0 := by
    intro A refl
    unfold solarRad
    ring
  refine ⟨h0, ?_, ?_⟩
  · intro c A met tempt i s
    refine ⟨h0 A c.refl, ?_⟩
    show 0.1 * (conv c.v c.T s.Ts + evap c.v c.T s.Ts tempt + solarRad A c.refl
      + bbRad A c.T s.Ts + fc s.Tc s.Ts A) = _
    rw [h0]
    ring
  · intro c A met i s
    refine ⟨h0 A c.refl, ?_⟩
    show conv c.v c.T s.Ts + evap c.v c.T s.Ts c.Tw + solarRad A c.refl
      + bbRad A c.T s.Ts + fc s.Tc s.Ts A = _
    rw [h0]
    ring

/-- C14: for a positive body area, a core temperature of at least 37 and a skin
temperature above absolute zero, the core-shell flux is positive when the core
is warmer than the skin, negative when it is colder, and 0 when both are equal. -/
theorem fc_sign (A Tc Ts : ℝ) (hA : 0 < A) (hTc : 37 ≤ Tc) (hTs : -273.15 < Ts) :
    (Ts < Tc → 0 < fc Tc Ts A) ∧ (Tc < Ts → fc Tc Ts A < 0) ∧ (Tc = Ts → fc Tc Ts A = 0) := by
  have hv := vb_gt Tc Ts hTc
  have ha := alpha_bounds (vb Tc Ts) hv
  have hc := coreA_pos (alpha (vb Tc Ts)) A (by linarith) hA
  have hK : 0 < coreA (alpha (vb Tc Ts)) A * vb Tc Ts * (10e-7) * 1060 * 3860 := by
    have h1 : 0 < coreA (alpha (vb Tc Ts)) A * vb Tc Ts := mul_pos hc (by linarith)
    have h2 : (0 : ℝ) < (10e-7) * 1060 * 3860 := by norm_num
    nlinarith
  refine ⟨?_, ?_, ?_⟩
  · intro h
    have hb := bbRad_pos (coreA (alpha (vb Tc Ts)) A) Tc Ts hTs h
    have ht : 0 < coreA (alpha (vb Tc Ts)) A * vb Tc Ts * (10e-7) * 1060 * 3860 * (Tc - Ts) :=
      mul_pos hK (by linarith)
    simp only [fc]
    linarith
  · intro h
    have hb := bbRad_pos (coreA (alpha (vb Tc Ts)) A) Ts Tc (by linarith) h
    rw [bbRad_swap _ (coreA (alpha (vb Tc Ts)) A) Ts Tc] at hb
    have ht : coreA (alpha (vb Tc Ts)) A * vb Tc Ts * (10e-7) * 1060 * 3860 * (Tc - Ts) < 0 :=
      mul_neg_of_pos_of_neg hK (by linarith)
    simp only [fc]
    linarith
  · intro h
    rw [h]
    exact fc_same Ts A

/-- C14, for a body area of 2 at core temperature 37 with the skin at 35, 40 and 37. -/
theorem fc_sign_witness : 0 < fc 37 35 2 ∧ fc 37 40 2 < 0 ∧ fc 37 37 2 = 0 :=
  ⟨(fc_sign 2 37 35 (by norm_num) (by norm_num) (by norm_num)).1 (by norm_num),
    (fc_sign 2 37 40 (by norm_num) (by norm_num) (by norm_num)).2.1 (by norm_num),
    (fc_sign 2 37 37 (by norm_num) (by norm_num) (by norm_num)).2.2 rfl⟩

/-- C16: one step of the sweep computes the skin-interface flux as 0.1 times the
sum of convection, evaporation, solar, black-body and core-shell terms and the
core-interface flux as 0.1 times metabolic heat minus core-shell term, all
evaluated at the variables the step starts from; and this is what every
executed step of every run of a terminated sweep has stored. -/
theorem step_fluxes :
    (∀ (c : Config) (A met tempt : ℝ) (i : ℕ) (s : Vars),
      (sweepStep c A met tempt i s).Fs =
        0.1 * (conv c.v c.T s.Ts + evap c.v c.T s.Ts tempt + solarRad A c.refl
          + bbRad A c.T s.Ts + fc s.Tc s.Ts A) ∧
      (sweepStep c A met tempt i s).Fc = 0.1 * (met - fc s.Tc s.Ts A)) ∧
    ∀ (c : Config) (outerFuel fuel : ℕ) (recs : List RunRecord),
      sweepMain c outerFuel fuel = some recs →
        ∀ rec ∈ recs, ∀ st ∈ rec.result.steps,
          st.post.Fs =
            0.1 * (conv c.v c.T st.pre.Ts + evap c.v c.T st.pre.Ts rec.tempt
              + solarRad (BSA c.m c.h) c.refl + bbRad (BSA c.m c.h) c.T st.pre.Ts
              + fc st.pre.Tc st.pre.Ts (BSA c.m c.h)) ∧
          st.post.Fc = 0.1 * (metabolicRate c.met c.m c.h c.a c.gend
            - fc st.pre.Tc st.pre.Ts (BSA c.m c.h)) := by
  refine ⟨fun c A met tempt i s => ⟨rfl, rfl⟩, ?_⟩
  intro c outerFuel fuel recs h rec hrec st hst
  obtain ⟨_, _, hloop⟩ := sweepMain_mem c outerFuel fuel recs h rec hrec
  have hpost := (runLoop_steps _ _ fuel 0 rec.start rec.result hloop st hst).2
  rw [hpost]
  exact ⟨rfl, rfl⟩

/-- C16, at `hotConfig`: the fluxes stored by the one step of the first run. -/
theorem step_fluxes_witness :
    hotVars.Fs =
        0.1 * (conv hotConfig.v hotConfig.T sweepStart.Ts
          + evap hotConfig.v hotConfig.T sweepStart.Ts hotRun1.tempt
          + solarRad (BSA hotConfig.m hotConfig.h) hotConfig.refl
          + bbRad (BSA hotConfig.m hotConfig.h) hotConfig.T sweepStart.Ts
          + fc sweepStart.Tc sweepStart.Ts (BSA hotConfig.m hotConfig.h)) ∧
      hotVars.Fc =
        0.1 * (metabolicRate hotConfig.met hotConfig.m hotConfig.h hotConfig.a hotConfig.gend
          - fc sweepStart.Tc sweepStart.Ts (BSA hotConfig.m hotConfig.h)) :=
  step_fluxes.2 hotConfig 3 2 [hotRun1, hotRun2] hot_sweep hotRun1 (by simp)
    { i := 0, pre := sweepStart, post := hotVars } (by simp [hotRun1])

/-- C19 (as stated, refuted): shifting core and skin temperature by the same
amount changes the quotient of the blood flow by its linear core term; at core
37, skin 34.7 and shift 1 the two quotients differ. -/
theorem vb_shift_counterexample :
    ¬ ∀ Tc Ts d : ℝ, 2.07 * Tc - 75.44 ≠ 0 → 2.07 * (Tc + d) - 75.44 ≠ 0 →
      vb (Tc + d) (Ts + d) / (2.07 * (Tc + d) - 75.44) = vb Tc Ts / (2.07 * Tc - 75.44) := by
  intro hall
  have h1 : (2.07 : ℝ) * 37 - 75.44 ≠ 0 := by norm_num
  have h2 : (2.07 : ℝ) * (37 + 1) - 75.44 ≠ 0 := by norm_num
  have h := hall 37 34.7 1 h1 h2
  rw [vb_div _ _ h2, vb_div _ _ h1] at h
  have harc : Real.arctan (0.75 * (34.7 + 1 - 34.7)) = Real.arctan (0.75 * (34.7 - 34.7)) := by
    have hc : (100.0 / 3.14159 : ℝ) ≠ 0 := by norm_num
    have h3 : (100.0 / 3.14159 : ℝ) * Real.arctan (0.75 * (34.7 + 1 - 34.7)) =
        (100.0 / 3.14159 : ℝ) * Real.arctan (0.75 * (34.7 - 34.7)) := by linarith
    exact mul_left_cancel₀ hc h3
  have hinj := Real.arctan_injective harc
  norm_num at hinj

/-- C19 (amended): the blood flow is the product of a term linear in the core
temperature and an arctangent term in the skin temperature alone: for a fixed
skin temperature the quotient of the blood flow by the linear core term is the
same for all core temperatures, namely
`0.7*((100/3.14159)*atan(0.75*(Ts - 34.7)) + 53)`. -/
theorem vb_product_form (Tc1 Tc2 Ts : ℝ) (h1 : 2.07 * Tc1 - 75.44 ≠ 0)
    (h2 : 2.07 * Tc2 - 75.44 ≠ 0) :
    vb Tc1 Ts / (2.07 * Tc1 - 75.44) = vb Tc2 Ts / (2.07 * Tc2 - 75.44) ∧
      vb Tc1 Ts / (2.07 * Tc1 - 75.44) =
        0.7 * ((100.0 / 3.14159) * Real.arctan (0.75 * (Ts - 34.7)) + 53) := by
  rw [vb_div Tc1 Ts h1, vb_div Tc2 Ts h2]
  exact ⟨rfl, rfl⟩

/-- C19 (amended), at core temperatures 37 and 38 with the skin at 35. -/
theorem vb_product_form_witness :
    vb 37 35 / (2.07 * 37 - 75.44) = vb 38 35 / (2.07 * 38 - 75.44) :=
  (vb_product_form 37 38 35 (by norm_num) (by norm_num)).1

/-- C20: from core temperature 37 upwards and for every skin temperature the
blood flow exceeds 2.4, the divisor of `alpha` is not 0, the shell fraction is
strictly between 0.044 and 0.2, and both divisors of the temperature updates
are positive for a positive mass. -/
theorem shell_fraction_safe (Tc Ts m : ℝ) (hTc : 37 ≤ Tc) (hm : 0 < m) :
    2.4 < vb Tc Ts ∧ vb Tc Ts - 0.1386 ≠ 0 ∧
      0.044 < alpha (vb Tc Ts) ∧ alpha (vb Tc Ts) < 0.2 ∧
      0 < 3874 * (alpha (vb Tc Ts) * m) ∧ 0 < 3874 * ((1 - alpha (vb Tc Ts)) * m) := by
  have hv := vb_gt Tc Ts hTc
  have ha := alpha_bounds (vb Tc Ts) hv
  have h1 : 0 < alpha (vb Tc Ts) * m := mul_pos (by linarith) hm
  have h2 : 0 < (1 - alpha (vb Tc Ts)) * m := mul_pos (by linarith) hm
  refine ⟨hv, ?_, ha.1, ha.2, by linarith, by linarith⟩
  intro h0
  linarith

/-- C20, at the initial state of the sweep with the default mass. -/
theorem shell_fraction_safe_witness :
    2.4 < vb 37 35 ∧ 0.044 < alpha (vb 37 35) ∧ alpha (vb 37 35) < 0.2 ∧
      0 < 3874 * ((1 - alpha (vb 37 35)) * 80) :=
  have h := shell_fraction_safe 37 35 80 (by norm_num) (by norm_num)
  ⟨h.1, h.2.2.1, h.2.2.2.1, h.2.2.2.2.2⟩

/-! ## The outer loop and the rows: counting -/

/-- The counter of the `j`-th executed iteration is the entry counter plus `j`. -/
theorem runLoop_counter {ρ : Type} (body : ℕ → Vars → Vars) (emit : ℕ → Vars → ρ)
    (fuel i : ℕ) (s : Vars) (r : LoopResult ρ) (h : runLoop body emit fuel i s = some r) :
    ∀ (j : ℕ) (st : StepRec), r.steps[j]? = some st → st.i = i + j := by
  induction fuel generalizing i s r with
  | zero => simp [runLoop] at h
  | succ fuel ih =>
    by_cases hg : loopGuard s.Tc s.Fs s.Fc
    · rw [runLoop_go body emit fuel i s hg] at h
      cases hr : runLoop body emit fuel (i + 1) (body i s) with
      | none => simp [hr] at h
      | some r1 =>
        simp only [hr, Option.map_some', Option.some.injEq] at h
        subst h
        intro j st hj
        cases j with
        | zero =>
          simp only [List.getElem?_cons_zero, Option.some.injEq] at hj
          rw [← hj]
          rfl
        | succ j =>
          simp only [List.getElem?_cons_succ] at hj
          have := ih (i + 1) (body i s) r1 hr j st hj
          omega
    · rw [runLoop_stop body emit fuel i s hg] at h
      simp only [Option.some.injEq] at h
      subst h
      intro j st hj
      simp at hj

/-- The rows of a terminated loop: their number is the number of multiples of 600
among the counters of the executed iterations, and the `k`-th row is written
from the variables left by the iteration whose counter is the `k`-th such
multiple. -/
theorem runLoop_rows {ρ : Type} (body : ℕ → Vars → Vars) (emit : ℕ → Vars → ρ)
    (fuel i : ℕ) (s : Vars) (r : LoopResult ρ) (h : runLoop body emit fuel i s = some r) :
    r.rows.length = (i + r.steps.length + 599) / 600 - (i + 599) / 600 ∧
      ∀ (k : ℕ) (row : ρ), r.rows[k]? = some row →
        ∃ st, r.steps[600 * ((i + 599) / 600 + k) - i]? = some st ∧ row = emit st.i st.post := by
  induction fuel generalizing i s r with
  | zero => simp [runLoop] at h
  | succ fuel ih =>
    by_cases hg : loopGuard s.Tc s.Fs s.Fc
    · rw [runLoop_go body emit fuel i s hg] at h
      cases hr : runLoop body emit fuel (i + 1) (body i s) with
      | none => simp [hr] at h
      | some r1 =>
        simp only [hr, Option.map_some', Option.some.injEq] at h
        subst h
        obtain ⟨hlen, hrow⟩ := ih (i + 1) (body i s) r1 hr
        by_cases hi : i % 600 = 0
        · simp only [hi, if_true, List.length_cons]
          constructor
          · omega
          · intro k row hk
            cases k with
            | zero =>
              simp only [List.getElem?_cons_zero, Option.some.injEq] at hk
              have hidx : 600 * ((i + 599) / 600 + 0) - i = 0 := by omega
              rw [hidx]
              exact ⟨{ i := i, pre := s, post := body i s }, List.getElem?_cons_zero, hk.symm⟩
            | succ k =>
              simp only [List.getElem?_cons_succ] at hk
              obtain ⟨st, hst, hrw⟩ := hrow k row hk
              have hidx : 600 * ((i + 599) / 600 + (k + 1)) - i =
                  (600 * ((i + 1 + 599) / 600 + k) - (i + 1)) + 1 := by omega
              rw [hidx, List.getElem?_cons_succ]
              exact ⟨st, hst, hrw⟩
        · simp only [hi, if_false, List.length_cons]
          constructor
          · omega
          · intro k row hk
            obtain ⟨st, hst, hrw⟩ := hrow k row hk
            have hidx : 600 * ((i + 599) / 600 + k) - i =
                (600 * ((i + 1 + 599) / 600 + k) - (i + 1)) + 1 := by omega
            rw [hidx, List.getElem?_cons_succ]
            exact ⟨st, hst, hrw⟩
    · rw [runLoop_stop body emit fuel i s hg] at h
      simp only [Option.some.injEq] at h
      subst h
      refine ⟨by simp, ?_⟩
      intro k row hk
      simp at hk

/-- The variables and the executed iterations of the loop do not depend on the
rows that are written. -/
theorem runLoop_emit_irrelevant {ρ σ : Type} (body : ℕ → Vars → Vars)
    (emit : ℕ → Vars → ρ) (emit1 : ℕ → Vars → σ) (fuel i : ℕ) (s : Vars) :
    (runLoop body emit fuel i s).map (fun r => (r.final, r.steps)) =
      (runLoop body emit1 fuel i s).map (fun r => (r.final, r.steps)) := by
  induction fuel generalizing i s with
  | zero => simp [runLoop]
  | succ fuel ih =>
    by_cases hg : loopGuard s.Tc s.Fs s.Fc
    · rw [runLoop_go body emit fuel i s hg, runLoop_go body emit1 fuel i s hg]
      have h := ih (i + 1) (body i s)
      cases h1 : runLoop body emit fuel (i + 1) (body i s) with
      | none =>
        cases h2 : runLoop body emit1 fuel (i + 1) (body i s) with
        | none => rfl
        | some r2 => simp [h1, h2] at h
      | some r1 =>
        cases h2 : runLoop body emit1 fuel (i + 1) (body i s) with
        | none => simp [h1, h2] at h
        | some r2 =>
          simp only [h1, h2, Option.map_some', Option.some.injEq, Prod.mk.injEq] at h
          simp [h.1, h.2]
    · rw [runLoop_stop body emit fuel i s hg, runLoop_stop body emit1 fuel i s hg]
      rfl

/-- C13: a terminated time-series run has executed `n >= 1` steps and written
`(n + 599)/600` rows, the integer ceiling of `n/600`; the `k`-th row carries the
time index `k` and the core and skin temperature left by the executed step of
index `600*k` (the step number `600*k + 1`), so the first row carries the
initial variables after one step; and the variables and executed steps are the
same whatever rows are written. -/
theorem time_rows (c : TimeConfig) (fuel : ℕ) (r : LoopResult TimeRow)
    (h : timeMain c fuel = some r) :
    1 ≤ r.steps.length ∧
    r.rows.length = (r.steps.length + 599) / 600 ∧
    (∀ k : ℕ, k < r.rows.length → ∃ st, r.steps[600 * k]? = some st ∧
      r.rows[k]? = some { minute := k, Tc := st.post.Tc, Ts := st.post.Ts }) ∧
    r.rows[0]? = some
      { minute := 0
        Tc := (timeStep c (BSA c.m c.h) (metabolicRate c.met c.m c.h c.a c.gend) 0 timeInit).Tc
        Ts := (timeStep c (BSA c.m c.h) (metabolicRate c.met c.m c.h c.a c.gend) 0 timeInit).Ts } ∧
    ∀ (σ : Type) (emit1 : ℕ → Vars → σ),
      (runLoop (timeStep c (BSA c.m c.h) (metabolicRate c.met c.m c.h c.a c.gend)) emit1 fuel 0
        timeInit).map (fun r1 => (r1.final, r1.steps)) = some (r.final, r.steps) := by
  have hloop : runLoop (timeStep c (BSA c.m c.h) (metabolicRate c.met c.m c.h c.a c.gend))
      timeRow fuel 0 timeInit = some r := h
  have hg : loopGuard timeInit.Tc timeInit.Fs timeInit.Fc := by
    apply loopGuard_sentinel
    show (36.5 : ℝ) < 42
    norm_num
  obtain ⟨rest, hrest⟩ := runLoop_head _ _ fuel 0 timeInit r hg hloop
  obtain ⟨hlen, hrow⟩ := runLoop_rows _ _ fuel 0 timeInit r hloop
  have hcount := runLoop_counter _ _ fuel 0 timeInit r hloop
  have hn : 1 ≤ r.steps.length := by
    rw [hrest]
    simp
  have hlen1 : r.rows.length = (r.steps.length + 599) / 600 := by omega
  have hk : ∀ k : ℕ, k < r.rows.length → ∃ st, r.steps[600 * k]? = some st ∧
      r.rows[k]? = some { minute := k, Tc := st.post.Tc, Ts := st.post.Ts } := by
    intro k hklt
    obtain ⟨st, hst, hrw⟩ := hrow k r.rows[k] (List.getElem?_eq_getElem hklt)
    have hidx : 600 * ((0 + 599) / 600 + k) - 0 = 600 * k := by omega
    rw [hidx] at hst
    have hi := hcount (600 * k) st hst
    refine ⟨st, hst, ?_⟩
    rw [List.getElem?_eq_getElem hklt, hrw, hi]
    simp [timeRow]
  refine ⟨hn, hlen1, hk, ?_, ?_⟩
  · obtain ⟨st, hst, hr0⟩ := hk 0 (by omega)
    rw [hrest] at hst
    simp only [Nat.mul_zero, List.getElem?_cons_zero, Option.some.injEq] at hst
    rw [hr0, ← hst]
  · intro σ emit1
    have hirr := runLoop_emit_irrelevant
      (timeStep c (BSA c.m c.h) (metabolicRate c.met c.m c.h c.a c.gend)) emit1 timeRow fuel 0
      timeInit
    rw [hirr, hloop]
    rfl

/-- C13, at `hotTimeConfig`: one step, one row, which carries time index 0 and the
temperatures after that step. -/
theorem time_rows_witness :
    timeMain hotTimeConfig 2 =
        some { final := hotTimeVars, steps := [{ i := 0, pre := timeInit, post := hotTimeVars }],
               rows := [timeRow 0 hotTimeVars] } ∧
      ([timeRow 0 hotTimeVars] : List TimeRow).length = (1 + 599) / 600 ∧
      ([timeRow 0 hotTimeVars] : List TimeRow)[0]? =
        some { minute := 0, Tc := hotTimeVars.Tc, Ts := hotTimeVars.Ts } :=
  have h := time_rows hotTimeConfig 2 _ hot_time
  ⟨hot_time, h.2.1, rfl⟩

/-! ## The first step at `calmConfig` -/

/-- For a fixed core temperature of at least 37 the blood flow is strictly
increasing in the skin temperature. -/
theorem vb_lt_of_Ts_lt (Tc Ts Ts1 : ℝ) (hTc : 37 ≤ Tc) (h : Ts < Ts1) :
    vb Tc Ts < vb Tc Ts1 := by
  unfold vb
  have harc : Real.arctan (0.75 * (Ts - 34.7)) < Real.arctan (0.75 * (Ts1 - 34.7)) :=
    Real.arctan_strictMono (by linarith)
  have hc : (0 : ℝ) < 100.0 / 3.14159 := by norm_num
  have hB : (100.0 / 3.14159) * Real.arctan (0.75 * (Ts - 34.7)) + 53 <
      (100.0 / 3.14159) * Real.arctan (0.75 * (Ts1 - 34.7)) + 53 := by
    have := mul_lt_mul_of_pos_left harc hc
    linarith
  have hL : (0 : ℝ) < 0.7 * (2.07 * Tc - 75.44) := by linarith
  exact mul_lt_mul_of_pos_left hB hL

/-- Above the singular value the shell fraction is strictly decreasing in the
blood flow. -/
theorem alpha_lt_of_lt (x y : ℝ) (hx : 0.1386 < x) (h : x < y) : alpha y < alpha x := by
  unfold alpha
  have h1 : 0.35 / (y - 0.1386) < 0.35 / (x - 0.1386) :=
    div_lt_div_of_pos_left (by norm_num) (by linarith) (by linarith)
  linarith

/-- The blood flow at the initial state of the sweep is at least 42. -/
theorem vb_init_ge : 42 ≤ vb 37 35 := by
  unfold vb
  have h0 : Real.arctan 0 < Real.arctan (0.75 * (35 - 34.7)) :=
    Real.arctan_strictMono (by norm_num)
  rw [Real.arctan_zero] at h0
  have hc : (0 : ℝ) < 100.0 / 3.14159 := by norm_num
  have := mul_pos hc h0
  nlinarith

/-- The shell fraction at the initial state of the sweep is below 0.06. -/
theorem alpha_init_lt : alpha (vb 37 35) < 0.06 := by
  have hv := vb_init_ge
  unfold alpha
  have h1 : 0.35 / (vb 37 35 - 0.1386) < 0.016 := by
    rw [div_lt_iff₀ (by linarith)]
    linarith
  linarith

/-- The default body has a surface area of at least 2. -/
theorem BSA_default_ge : 2 ≤ BSA 80 185 := by
  unfold BSA
  rw [Real.le_sqrt' (by norm_num)]
  norm_num

/-- The core-shell flux of the default body at the initial state of the sweep is at
least 100. -/
theorem fc_init_ge : 100 ≤ fc 37 35 (BSA 80 185) := by
  have hv := vb_init_ge
  have ha := alpha_bounds (vb 37 35) (by linarith)
  have hA := BSA_default_ge
  have hb0 : (0 : ℝ) < 1 - alpha (vb 37 35) := by linarith
  have hpow : 1 - alpha (vb 37 35) ≤ (1 - alpha (vb 37 35)) ^ ((2.0 : ℝ) / 3.0) := by
    have h := Real.rpow_le_rpow_of_exponent_ge hb0 (by linarith)
      (show (2.0 : ℝ) / 3.0 ≤ 1 by norm_num)
    rwa [Real.rpow_one] at h
  have hc : 1.6 ≤ coreA (alpha (vb 37 35)) (BSA 80 185) := by
    unfold coreA
    have h8 : (0.8 : ℝ) ≤ (1 - alpha (vb 37 35)) ^ ((2.0 : ℝ) / 3.0) := by linarith
    nlinarith
  have hprod : 1.6 * 42 ≤ coreA (alpha (vb 37 35)) (BSA 80 185) * vb 37 35 :=
    mul_le_mul hc hv (by norm_num) (by linarith)
  have hbb : 0 ≤ bbRad (coreA (alpha (vb 37 35)) (BSA 80 185)) 37 35 := by
    unfold bbRad
    norm_num
  simp only [fc]
  nlinarith

/-- The metabolic heat at `calmConfig` is the resting energy expenditure 88.4268. -/
theorem calm_met :
    metabolicRate calmConfig.met calmConfig.m calmConfig.h calmConfig.a calmConfig.gend
      = 88.4268 := by
  simp only [metabolicRate, calmConfig, REE, if_true]
  norm_num

/-- The fluxes of the first step at `calmConfig`: the skin-interface flux is
positive and the core-interface flux is negative. -/
theorem calm_fluxes :
    calmVars.Fs = 0.1 * fc 37 35 (BSA 80 185) ∧ 0 < calmVars.Fs ∧
      calmVars.Fc = 0.1 * (88.4268 - fc 37 35 (BSA 80 185)) ∧ calmVars.Fc < 0 := by
  have hf := fc_init_ge
  have h1 : calmVars.Fs = 0.1 * fc 37 35 (BSA 80 185) := by
    show 0.1 * (conv 0 35 35 + evap 0 35 35 22 + solarRad (BSA 80 185) 0.50
      + bbRad (BSA 80 185) 35 35 + fc 37 35 (BSA 80 185)) = _
    simp [conv, evap, solarRad, bbRad]
  have h2 : calmVars.Fc = 0.1 * (88.4268 - fc 37 35 (BSA 80 185)) := by
    show 0.1 * (metabolicRate calmConfig.met calmConfig.m calmConfig.h calmConfig.a
      calmConfig.gend - fc 37 35 (BSA 80 185)) = _
    rw [calm_met]
  refine ⟨h1, ?_, h2, ?_⟩
  · rw [h1]
    linarith
  · rw [h2]
    linarith

/-- The first step at `calmConfig` raises the skin temperature. -/
theorem calm_Ts : calmVars.Ts = 35 + calmVars.Fs / (3874 * (alpha (vb 37 35) * 80)) ∧
    35 < calmVars.Ts := by
  have hF := calm_fluxes.2.1
  have ha := alpha_bounds (vb 37 35) (vb_gt 37 35 le_rfl)
  have hD : (0 : ℝ) < 3874 * (alpha (vb 37 35) * 80) := by nlinarith
  have h1 : calmVars.Ts = 35 + calmVars.Fs / (3874 * (alpha (vb 37 35) * 80)) := rfl
  refine ⟨h1, ?_⟩
  rw [h1]
  have := div_pos hF hD
  linarith

/-- C17 (the code at the failing input): in every step of the sweep the skin
update divides by `3874*alpha(vb(Tc, Ts))*m` with the skin temperature the step
starts from, and the core update divides by `3874*(1 - alpha(vb(Tc, Ts1)))*m`
with the skin temperature `Ts1` the step has just stored.  In the first step at
`calmConfig` the two shell fractions differ, and the stored core temperature is
not the one obtained with the shell fraction of the starting state. -/
theorem sweep_step_shell_fractions :
    (∀ (c : Config) (A met tempt : ℝ) (i : ℕ) (s : Vars),
      (sweepStep c A met tempt i s).Ts =
        s.Ts + (sweepStep c A met tempt i s).Fs / (3874 * (alpha (vb s.Tc s.Ts) * c.m)) ∧
      (sweepStep c A met tempt i s).Tc =
        s.Tc + (sweepStep c A met tempt i s).Fc /
          (3874 * ((1 - alpha (vb s.Tc (sweepStep c A met tempt i s).Ts)) * c.m))) ∧
    alpha (vb 37 calmVars.Ts) < alpha (vb 37 35) ∧
    calmVars.Tc = 37 + calmVars.Fc / (3874 * ((1 - alpha (vb 37 calmVars.Ts)) * 80)) ∧
    calmVars.Tc ≠ 37 + calmVars.Fc / (3874 * ((1 - alpha (vb 37 35)) * 80)) := by
  have hTs := calm_Ts.2
  have hFc := calm_fluxes.2.2.2
  have hv0 := vb_gt 37 35 le_rfl
  have hv1 := vb_lt_of_Ts_lt 37 35 calmVars.Ts le_rfl hTs
  have ha0 := alpha_bounds (vb 37 35) hv0
  have hlt : alpha (vb 37 calmVars.Ts) < alpha (vb 37 35) :=
    alpha_lt_of_lt (vb 37 35) (vb 37 calmVars.Ts) (by linarith) hv1
  have hTc : calmVars.Tc = 37 + calmVars.Fc / (3874 * ((1 - alpha (vb 37 calmVars.Ts)) * 80)) :=
    rfl
  refine ⟨fun c A met tempt i s => ⟨rfl, rfl⟩, hlt, hTc, ?_⟩
  have hD0 : (0 : ℝ) < 3874 * ((1 - alpha (vb 37 35)) * 80) := by nlinarith
  have hD1 : (0 : ℝ) < 3874 * ((1 - alpha (vb 37 calmVars.Ts)) * 80) := by nlinarith
  rw [hTc]
  intro heq
  have hdiv : calmVars.Fc / (3874 * ((1 - alpha (vb 37 calmVars.Ts)) * 80)) =
      calmVars.Fc / (3874 * ((1 - alpha (vb 37 35)) * 80)) := by linarith
  rw [div_eq_div_iff hD1.ne' hD0.ne'] at hdiv
  have hD := mul_left_cancel₀ hFc.ne hdiv
  linarith

/-- C18 (as stated, refuted): one step of the time series does not yield the skin
temperature of one step of the sweep; at the calm configurations from core 37
and skin 35 the two differ. -/
theorem time_step_counterexample :
    ¬ ∀ (ct : TimeConfig) (cs : Config) (A met : ℝ) (i : ℕ) (s : Vars),
      cs.m = ct.m → cs.T = ct.T → cs.v = ct.v → cs.refl = ct.refl →
        (timeStep ct A met i s).Tc = (sweepStep cs A met ct.Tw i s).Tc ∧
        (timeStep ct A met i s).Ts = (sweepStep cs A met ct.Tw i s).Ts := by
  intro hall
  have h := (hall calmTimeConfig calmConfig (BSA 80 185) 88.4268 0 sweepStart rfl rfl rfl rfl).2
  have hf := fc_init_ge
  have ha := alpha_init_lt
  have ha0 := alpha_bounds (vb 37 35) (vb_gt 37 35 le_rfl)
  have hflux : conv 0 35 35 + evap 0 35 35 22 + solarRad (BSA 80 185) 0.50
      + bbRad (BSA 80 185) 35 35 + fc 37 35 (BSA 80 185) = fc 37 35 (BSA 80 185) := by
    simp [conv, evap, solarRad, bbRad]
  have h1 : (35 : ℝ) + 0.1 * (conv 0 35 35 + evap 0 35 35 22 + solarRad (BSA 80 185) 0.50
      + bbRad (BSA 80 185) 35 35 + fc 37 35 (BSA 80 185)) / (0.1 * 80 * 3874) =
      35 + 0.1 * (conv 0 35 35 + evap 0 35 35 22 + solarRad (BSA 80 185) 0.50
      + bbRad (BSA 80 185) 35 35 + fc 37 35 (BSA 80 185)) /
        (3874 * (alpha (vb 37 35) * 80)) := h
  rw [hflux] at h1
  have hD : (0 : ℝ) < 3874 * (alpha (vb 37 35) * 80) := by nlinarith
  have hdiv : 0.1 * fc 37 35 (BSA 80 185) / (0.1 * 80 * 3874) =
      0.1 * fc 37 35 (BSA 80 185) / (3874 * (alpha (vb 37 35) * 80)) := by linarith
  rw [div_eq_div_iff (by norm_num) hD.ne'] at hdiv
  have hF : (0.1 : ℝ) * fc 37 35 (BSA 80 185) ≠ 0 := by
    have : (0 : ℝ) < 0.1 * fc 37 35 (BSA 80 185) := by linarith
    exact this.ne'
  have hD2 := mul_left_cancel₀ hF hdiv
  linarith

/-- C18 (amended): for the same area, metabolic heat, conditions and starting
variables the time-series step computes the same flux terms as the sweep step
but stores the interface fluxes unscaled (the sweep's are 0.1 times them), it
updates the skin temperature by `0.1*Fs/(0.1*m*3874)` and the core temperature
by `0.1*Fc/(0.9*m*3874)`, with the fixed shell fraction 0.1 in place of
`alpha(vb)`, and its loop continues on the unscaled fluxes, that is, while the
core temperature is below 42 and one of the 0.1-scaled fluxes exceeds 1e-5 in
absolute value. -/
theorem time_step_own_update (ct : TimeConfig) (cs : Config) (A met : ℝ) (i : ℕ) (s : Vars)
    (hT : cs.T = ct.T) (hv : cs.v = ct.v) (hr : cs.refl = ct.refl) :
    (sweepStep cs A met ct.Tw i s).Fs = 0.1 * (timeStep ct A met i s).Fs ∧
    (sweepStep cs A met ct.Tw i s).Fc = 0.1 * (timeStep ct A met i s).Fc ∧
    (timeStep ct A met i s).Ts = s.Ts + 0.1 * (timeStep ct A met i s).Fs / (0.1 * ct.m * 3874) ∧
    (timeStep ct A met i s).Tc = s.Tc + 0.1 * (timeStep ct A met i s).Fc / (0.9 * ct.m * 3874) ∧
    (loopGuard (timeStep ct A met i s).Tc (timeStep ct A met i s).Fs (timeStep ct A met i s).Fc ↔
      (timeStep ct A met i s).Tc < 42 ∧
        (|(sweepStep cs A met ct.Tw i s).Fs| > 1e-5 ∨
          |(sweepStep cs A met ct.Tw i s).Fc| > 1e-5)) := by
  have hFs : (sweepStep cs A met ct.Tw i s).Fs = 0.1 * (timeStep ct A met i s).Fs := by
    show 0.1 * (conv cs.v cs.T s.Ts + evap cs.v cs.T s.Ts ct.Tw + solarRad A cs.refl
      + bbRad A cs.T s.Ts + fc s.Tc s.Ts A) =
      0.1 * (conv ct.v ct.T s.Ts + evap ct.v ct.T s.Ts ct.Tw + solarRad A ct.refl
      + bbRad A ct.T s.Ts + fc s.Tc s.Ts A)
    rw [hT, hv, hr]
  have hFc : (sweepStep cs A met ct.Tw i s).Fc = 0.1 * (timeStep ct A met i s).Fc := rfl
  refine ⟨hFs, hFc, rfl, rfl, ?_⟩
  rw [hFs, hFc, abs_mul, abs_mul, abs_of_pos (show (0 : ℝ) < 0.1 by norm_num)]
  unfold loopGuard
  constructor
  · rintro ⟨h1, h2 | h2⟩
    · exact ⟨h1, Or.inl (by linarith)⟩
    · exact ⟨h1, Or.inr (by linarith)⟩
  · rintro ⟨h1, h2 | h2⟩
    · exact ⟨h1, Or.inl (by linarith)⟩
    · exact ⟨h1, Or.inr (by linarith)⟩

/-- C18 (amended), at the calm configurations from the initial state of the sweep. -/
theorem time_step_own_update_witness :
    (sweepStep calmConfig (BSA 80 185) 88.4268 22 0 sweepStart).Fs =
        0.1 * (timeStep calmTimeConfig (BSA 80 185) 88.4268 0 sweepStart).Fs ∧
      (timeStep calmTimeConfig (BSA 80 185) 88.4268 0 sweepStart).Ts =
        35 + 0.1 * (timeStep calmTimeConfig (BSA 80 185) 88.4268 0 sweepStart).Fs
          / (0.1 * 80 * 3874) :=
  have h := time_step_own_update calmTimeConfig calmConfig (BSA 80 185) 88.4268 0 sweepStart
    rfl rfl rfl
  ⟨h.1, h.2.2.1⟩

/-- C21: the black-body flux is the same for every area argument and changes
sign when its two temperatures are exchanged; so the radiative part of the
core-shell flux `fc`, the term `bbRad(coreA(alpha(flow), BSA), Tc, Ts)`, is the
same for every body surface area and every shell fraction, and `fc` is its
conductive term plus `0.0000000567*((Tc + 273.15)^4 - (Ts + 273.15)^4)`. -/
theorem bbRad_area_free :
    (∀ A1 A2 T Ts : ℝ, bbRad A1 T Ts = bbRad A2 T Ts) ∧
    (∀ A1 T Ts : ℝ, bbRad A1 T Ts = -bbRad A1 Ts T) ∧
    (∀ al1 al2 A1 A2 Tc Ts : ℝ,
      bbRad (coreA al1 A1) Tc Ts = bbRad (coreA al2 A2) Tc Ts) ∧
    (∀ Tc Ts A : ℝ,
      fc Tc Ts A =
        coreA (alpha (vb Tc Ts)) A * vb Tc Ts * (10e-7) * 1060 * 3860 * (Tc - Ts)
          + 0.0000000567 * ((Tc + 273.15) ^ 4 - (Ts + 273.15) ^ 4)) ∧
    (∀ Tc Ts A1 A2 : ℝ,
      fc Tc Ts A1 - coreA (alpha (vb Tc Ts)) A1 * vb Tc Ts * (10e-7) * 1060 * 3860 * (Tc - Ts) =
        fc Tc Ts A2
          - coreA (alpha (vb Tc Ts)) A2 * vb Tc Ts * (10e-7) * 1060 * 3860 * (Tc - Ts)) := by
  refine ⟨fun A1 A2 T Ts => rfl, ?_, fun al1 al2 A1 A2 Tc Ts => rfl,
    fun Tc Ts A => rfl, ?_⟩
  · intro A1 T Ts
    unfold bbRad
    ring
  · intro Tc Ts A1 A2
    simp only [fc, bbRad]
    ring

end HumanTemp
